import Mathlib

/-! DjProgram: dual-deck mixer and automix scheduler.

A shallow embedding of `script.js`.  JavaScript numbers are idealised as
rationals (`ℚ`); the crossfade curve, which needs `cos`, is stated over `ℝ`,
and a second time as the script evaluates it, in double precision, for the
values it takes at the ends of the crossfader.
DOM decoration (button classes, labels other than the track label) is left
out.  The audio context is taken to be running, so that the `await`s inside
`loadFile`, `startAutomix` and the monitor callback resolve without another
callback running in between: each handler is one atomic step.
-/

namespace DjProgram

/-! ## Data model -/

/-- A `File` object as the handlers read it: `name`, `size`, `type`, and the
duration of the audio it decodes to (reported by the playback engine once the
track is ready). -/
structure File where
  name : String
  size : Nat
  type : String
  duration : ℚ
  deriving DecidableEq

/-- The identity the queue uses for de-duplication: the `(name, size)` pair. -/
def File.key (f : File) : String × Nat := (f.name, f.size)

/-- A waveform region (`addRegion` argument); `finish` is the `end` property. -/
structure Region where
  id : String
  start : ℚ
  finish : ℚ
  loop : Bool
  deriving DecidableEq

/-- External playback engine (one WaveSurfer instance), modelled from the
contract the script relies on: load, play, pause, stop, seek by fraction,
current time, duration, playback rate, looping flag and regions keyed by id. -/
structure WaveSurfer where
  source : Option File
  ready : Bool
  duration : ℚ
  currentTime : ℚ
  playing : Bool
  playbackRate : ℚ
  loop : Bool
  regions : List Region
  deriving DecidableEq

/-- Constructor `WaveSurfer.create` with the given `audioRate`: nothing loaded, duration 0. -/
def WaveSurfer.create (audioRate : ℚ) : WaveSurfer :=
  { source := none, ready := false, duration := 0, currentTime := 0,
    playing := false, playbackRate := audioRate, loop := false, regions := [] }

/-- Engine call `wavesurfer.load(objectUrl)`: the new source is not ready yet. -/
def WaveSurfer.load (w : WaveSurfer) (file : File) : WaveSurfer :=
  { w with source := some file, ready := false, duration := 0, currentTime := 0 }

/-- Engine call `wavesurfer.play()`. -/
def WaveSurfer.play (w : WaveSurfer) : WaveSurfer := { w with playing := true }

/-- Engine call `wavesurfer.pause()`. -/
def WaveSurfer.pause (w : WaveSurfer) : WaveSurfer := { w with playing := false }

/-- Engine call `wavesurfer.stop()`: pause and rewind. -/
def WaveSurfer.stop (w : WaveSurfer) : WaveSurfer :=
  { w with playing := false, currentTime := 0 }

/-- Engine call `wavesurfer.playPause()`. -/
def WaveSurfer.playPause (w : WaveSurfer) : WaveSurfer :=
  { w with playing := !w.playing }

/-- Engine call `wavesurfer.seekTo(fraction)`. -/
def WaveSurfer.seekTo (w : WaveSurfer) (fraction : ℚ) : WaveSurfer :=
  { w with currentTime := fraction * w.duration }

/-- Engine call `wavesurfer.setPlaybackRate(rate)`. -/
def WaveSurfer.setPlaybackRate (w : WaveSurfer) (rate : ℚ) : WaveSurfer :=
  { w with playbackRate := rate }

/-- Engine call `wavesurfer.setLoop(flag)`. -/
def WaveSurfer.setLoop (w : WaveSurfer) (flag : Bool) : WaveSurfer :=
  { w with loop := flag }

/-- Engine call `wavesurfer.addRegion(region)`: regions are keyed by id. -/
def WaveSurfer.addRegion (w : WaveSurfer) (r : Region) : WaveSurfer :=
  { w with regions := w.regions.filter (fun x => x.id != r.id) ++ [r] }

/-- Engine call `wavesurfer.clearRegions()`. -/
def WaveSurfer.clearRegions (w : WaveSurfer) : WaveSurfer :=
  { w with regions := [] }

/-- One deck (`class Deck`).  `trackInfo` is `trackInfo.textContent`,
`volumeSlider` the slider value, `lpfFrequency` the effect filter cutoff,
`eqHigh/eqMid/eqLow` the band gains in dB, `pendingReads` the `FileReader`
loads started by `loadFile` whose decode has not reported back yet.
`wavesurfer` is always present: the constructor creates it and
`setupWaveform` replaces it. -/
structure Deck where
  bpm : Option ℚ
  isPlaying : Bool
  isSynced : Bool
  isLooping : Bool
  loopStart : Option ℚ
  loopEnd : Option ℚ
  cuePoint : ℚ
  pitch : ℚ
  audioBuffer : Option File
  wavesurfer : WaveSurfer
  hotCues : List (String × ℚ)
  currentFile : Option File
  trackInfo : String
  volumeSlider : ℚ
  lpfFrequency : ℚ
  eqHigh : ℚ
  eqMid : ℚ
  eqLow : ℚ
  pendingReads : List File
  deriving DecidableEq

/-- JavaScript truthiness of a tempo value: neither `null` nor `0`. -/
def truthy (x : Option ℚ) : Bool :=
  match x with
  | none => false
  | some v => v != 0

/-- The constructor: property initialisation followed by `setupAudioChain`
and `setupWaveform`; `label` and `volume` come from the page. -/
def Deck.new (label : String) (volume : ℚ) : Deck :=
  { bpm := none, isPlaying := false, isSynced := false, isLooping := false,
    loopStart := none, loopEnd := none, cuePoint := 0, pitch := 0,
    audioBuffer := none, wavesurfer := WaveSurfer.create (1 + 0 / 100),
    hotCues := [], currentFile := none, trackInfo := label,
    volumeSlider := volume, lpfFrequency := 22000,
    eqHigh := 0, eqMid := 0, eqLow := 0, pendingReads := [] }

/-- Method `setupWaveform`: the old instance is destroyed, a fresh one is created
with `audioRate: 1 + pitch / 100`. -/
def Deck.setupWaveform (d : Deck) : Deck :=
  { d with wavesurfer := WaveSurfer.create (1 + d.pitch / 100) }

/-- Method `addHotCueMarker(cueNum, time)`. -/
def Deck.addHotCueMarker (d : Deck) (cueNum : String) (time : ℚ) : Deck :=
  let marker : Region :=
    { id := "hotcue-" ++ cueNum, start := time, finish := time + 0.1, loop := false }
  { d with wavesurfer := d.wavesurfer.addRegion marker }

/-- Method `updateHotCueMarkers`: re-add a marker for every stored hot cue. -/
def Deck.updateHotCueMarkers (d : Deck) : Deck :=
  d.hotCues.foldl (fun acc c => acc.addHotCueMarker c.1 c.2) d

/-- The test `loopStart !== null && loopEnd !== null && loopStart < loopEnd`. -/
def Deck.loopPointsValid (d : Deck) : Bool :=
  match d.loopStart, d.loopEnd with
  | some a, some b => decide (a < b)
  | _, _ => false

/-- The object literal passed to `addRegion` for the loop region. -/
def loopRegion (start finish : Option ℚ) (loop : Bool) : Region :=
  { id := "loop-region", start := start.getD 0, finish := finish.getD 0, loop := loop }

/-- Method `updateLoop`. -/
def Deck.updateLoop (d : Deck) : Deck :=
  if d.loopPointsValid then
    let d1 := { d with wavesurfer := d.wavesurfer.clearRegions }
    let d2 := d1.updateHotCueMarkers
    { d2 with wavesurfer := d2.wavesurfer.addRegion (loopRegion d2.loopStart d2.loopEnd d2.isLooping) }
  else
    let d1 := { d with wavesurfer := d.wavesurfer.clearRegions }
    d1.updateHotCueMarkers

/-- Rounding as `Math.round`: nearest integer, ties upward. -/
def jsRound (x : ℚ) : ℤ := ⌊x + 1 / 2⌋

/-- The `%` operator on numbers: remainder with the sign of the dividend. -/
def jsMod (a b : ℚ) : ℚ :=
  if 0 ≤ a / b then a - b * ⌊a / b⌋ else a - b * ⌈a / b⌉

/-- Method `analyzeBPM`. -/
def Deck.analyzeBPM (d : Deck) : Deck :=
  if d.wavesurfer.duration != 0 then
    let duration := d.wavesurfer.duration
    let estimatedBPM : ℚ := jsRound (120 + jsMod duration 20 * 0.5)
    { d with bpm := some (max 80 (min estimatedBPM 180)) }
  else
    { d with bpm := none }

/-- Method `loadFile(file)`, with the audio context running. -/
def Deck.loadFile (d : Deck) (file : File) : Deck :=
  let d1 := { d with trackInfo := file.name }
  let d2 := d1.setupWaveform
  let d3 := { d2 with wavesurfer := d2.wavesurfer.load file }
  { d3 with loopStart := none, loopEnd := none, isLooping := false,
            hotCues := [], lpfFrequency := 22000,
            pendingReads := d3.pendingReads ++ [file] }

/-- The `FileReader` callback of `loadFile`: `ok` tells whether
`decodeAudioData` succeeded. -/
def Deck.readerOnload (d : Deck) (file : File) (ok : Bool) : Deck :=
  if file ∈ d.pendingReads then
    let d1 := { d with pendingReads := d.pendingReads.erase file }
    if ok then
      ({ d1 with audioBuffer := some file }).analyzeBPM
    else
      { d1 with trackInfo := "Error loading: " ++ file.name }
  else d

/-- The playback engine reports the loaded source ready, then the `ready`
handler runs. -/
def Deck.onReady (d : Deck) : Deck :=
  match d.wavesurfer.source with
  | none => d
  | some file =>
    if d.wavesurfer.ready then d
    else
      let d1 := { d with wavesurfer := { d.wavesurfer with ready := true, duration := file.duration } }
      let d2 := d1.analyzeBPM
      let d3 := { d2 with isPlaying := false }
      let d4 := { d3 with wavesurfer := d3.wavesurfer.clearRegions }
      d4.updateHotCueMarkers

/-- The `finish` handler. -/
def Deck.onFinish (d : Deck) : Deck :=
  { d with isPlaying := false, wavesurfer := d.wavesurfer.pause }

/-- The `interaction` handler: a click on the waveform sets the cue point. -/
def Deck.onInteraction (d : Deck) (newTime : ℚ) : Deck :=
  { d with cuePoint := newTime }

/-- The playback position moves (playback progressing). -/
def Deck.onPosition (d : Deck) (t : ℚ) : Deck :=
  if d.wavesurfer.playing && decide (0 ≤ t) && decide (t ≤ d.wavesurfer.duration) then
    { d with wavesurfer := { d.wavesurfer with currentTime := t } }
  else d

/-- Play/pause button. -/
def Deck.playPauseClick (d : Deck) : Deck :=
  if decide (d.wavesurfer.duration > 0) then
    let w := d.wavesurfer.playPause
    { d with wavesurfer := w, isPlaying := w.playing }
  else d

/-- Volume slider input: the slider takes the value; the mixer then
recomputes the gains from the crossfader. -/
def Deck.volumeInput (d : Deck) (v : ℚ) : Deck :=
  { d with volumeSlider := v }

/-- Pitch slider input. -/
def Deck.pitchInput (d : Deck) (v : ℚ) : Deck :=
  { d with pitch := v, wavesurfer := d.wavesurfer.setPlaybackRate (1 + v / 100) }

/-- Cue button.  The second component tells whether a 500 ms pause timeout
was scheduled. -/
def Deck.cueClick (d : Deck) : Deck × Bool :=
  if decide (d.wavesurfer.duration > 0) then
    let w := d.wavesurfer.seekTo (d.cuePoint / d.wavesurfer.duration)
    if !d.isPlaying then
      ({ d with wavesurfer := w.play, isPlaying := true }, true)
    else
      ({ d with wavesurfer := w.seekTo (d.cuePoint / w.duration) }, false)
  else (d, false)

/-- The 500 ms timeout of the cue and hot-cue previews. -/
def Deck.pauseTimeout (d : Deck) : Deck :=
  { d with wavesurfer := d.wavesurfer.pause, isPlaying := false }

/-- Loop IN button. -/
def Deck.loopInClick (d : Deck) : Deck :=
  if decide (d.wavesurfer.duration > 0) then
    ({ d with loopStart := some d.wavesurfer.currentTime }).updateLoop
  else d

/-- Loop OUT button. -/
def Deck.loopOutClick (d : Deck) : Deck :=
  if decide (d.wavesurfer.duration > 0) then
    ({ d with loopEnd := some d.wavesurfer.currentTime }).updateLoop
  else d

/-- Loop toggle button. -/
def Deck.loopClick (d : Deck) : Deck :=
  if d.loopPointsValid then
    let d1 := { d with isLooping := !d.isLooping }
    if d1.isLooping then
      let w := (d1.wavesurfer.setLoop true).addRegion (loopRegion d1.loopStart d1.loopEnd true)
      if !d1.isPlaying then
        let w1 := (w.seekTo (d1.loopStart.getD 0 / w.duration)).play
        { d1 with wavesurfer := w1, isPlaying := true }
      else
        { d1 with wavesurfer := w }
    else
      let d2 := { d1 with wavesurfer := (d1.wavesurfer.setLoop false).clearRegions }
      d2.updateHotCueMarkers
  else
    { d with isLooping := false }

/-- Loop length selector: `beats` is the parsed option value. -/
def Deck.loopLengthChange (d : Deck) (beats : ℚ) : Deck :=
  match d.bpm with
  | none => d
  | some bpm =>
    if bpm != 0 && decide (d.wavesurfer.duration > 0) then
      let beatDuration := 60 / bpm
      let loopDuration := beats * beatDuration
      let loopStart := d.wavesurfer.currentTime
      let loopEnd := loopStart + loopDuration
      let d1 := { d with loopStart := some loopStart, loopEnd := some loopEnd }
      if decide (loopEnd ≤ d1.wavesurfer.duration) then
        let d2 := d1.updateLoop
        if d2.isLooping then
          let region := loopRegion d2.loopStart d2.loopEnd true
          { d2 with wavesurfer := d2.wavesurfer.clearRegions.addRegion region }
        else d2
      else
        let d2 := { d1 with loopStart := none, loopEnd := none }
        let d3 := { d2 with wavesurfer := d2.wavesurfer.clearRegions }
        d3.updateHotCueMarkers
    else d

/-- Lookup `hotCues[cueNum]`. -/
def Deck.hotCue (d : Deck) (cueNum : String) : Option ℚ :=
  (d.hotCues.find? (fun c => c.1 == cueNum)).map Prod.snd

/-- Hot cue button.  The second component tells whether a 500 ms pause
timeout was scheduled. -/
def Deck.hotCueClick (d : Deck) (cueNum : String) : Deck × Bool :=
  if d.wavesurfer.duration == 0 then (d, false)
  else
    match d.hotCue cueNum with
    | some t =>
      let w := d.wavesurfer.seekTo (t / d.wavesurfer.duration)
      if !d.isPlaying then
        ({ d with wavesurfer := w.play, isPlaying := true }, true)
      else
        ({ d with wavesurfer := w }, false)
    | none =>
      let currentTime := d.wavesurfer.currentTime
      let d1 := { d with hotCues := d.hotCues ++ [(cueNum, currentTime)] }
      (d1.addHotCueMarker cueNum currentTime, false)

/-- Clear hot cues button; `confirmed` is the answer to the confirm dialog. -/
def Deck.clearHotCuesClick (d : Deck) (confirmed : Bool) : Deck :=
  if confirmed then
    let d1 := { d with hotCues := [] }
    let d2 := { d1 with wavesurfer := d1.wavesurfer.clearRegions }
    d2.updateLoop
  else d

/-- EQ and filter sliders: `(value - 1) * 12` dB per band, cutoff as given. -/
def Deck.eqInput (d : Deck) (band : Fin 3) (value : ℚ) : Deck :=
  if band = 0 then { d with eqHigh := (value - 1) * 12 }
  else if band = 1 then { d with eqMid := (value - 1) * 12 }
  else { d with eqLow := (value - 1) * 12 }

/-- Low-pass filter slider input. -/
def Deck.lpfInput (d : Deck) (value : ℚ) : Deck :=
  { d with lpfFrequency := value }

/-- Jog wheel drag by `deltaX` pixels. -/
def Deck.jogMove (d : Deck) (deltaX : ℚ) : Deck :=
  if decide (d.wavesurfer.duration > 0) then
    let newTime := d.wavesurfer.currentTime + deltaX * 0.05
    let fraction := max 0 (min newTime d.wavesurfer.duration) / d.wavesurfer.duration
    { d with wavesurfer := d.wavesurfer.seekTo fraction }
  else d

/-! ## Mixer, queue and automix scheduler -/

/-- The closure of one crossfade's UI interpolation interval
(`crossfadeUiInterval`): start value, target value and step counter. -/
structure CrossfadeUi where
  currentCrossfaderValue : ℚ
  targetCrossfaderValue : ℚ
  stepCount : Nat
  deriving DecidableEq

/-- The page state.  `decks0`, `decks1` are `mixer.decks[0]`, `mixer.decks[1]`;
`crossfader` is the crossfader element's value; `automixInterval` tells
whether the handle is non-null (the monitor interval is installed);
`crossfadeUiIntervals`, `flipTimeouts` and `pauseTimeouts` are the timers
still pending, a flip or pause timeout recorded by the deck it captured. -/
structure State where
  automixQueue : List File
  automixQueueIndex : Nat
  decks0 : Deck
  decks1 : Deck
  crossfader : ℚ
  masterGain : ℚ
  automixInterval : Bool
  currentActiveDeckIndex : Fin 2
  crossfadeUiIntervals : List CrossfadeUi
  flipTimeouts : List (Fin 2)
  pauseTimeouts : List (Fin 2)
  deriving DecidableEq

/-- Read `mixer.decks[i]`. -/
def State.decks (s : State) (i : Fin 2) : Deck :=
  if i = 0 then s.decks0 else s.decks1

/-- Write back deck `i`. -/
def State.setDeck (s : State) (i : Fin 2) (d : Deck) : State :=
  if i = 0 then { s with decks0 := d } else { s with decks1 := d }

/-- Result of a callback that may throw: `ok` with its return value, or an
uncaught `TypeError` with the state as it was when the exception was thrown. -/
inductive Outcome (α : Type) where
  | ok (value : α) (state : State)
  | typeError (state : State)
  deriving DecidableEq

/-- The state a callback leaves behind, whether or not it threw. -/
def Outcome.state {α : Type} : Outcome α → State
  | .ok _ s => s
  | .typeError s => s

/-- Seconds a crossfade lasts (`crossfadeDuration`). -/
def crossfadeDuration : ℚ := 5

/-- Number of UI interpolation steps (`crossfadeDuration * 10`). -/
def steps : Nat := 50

/-- One queue insertion: push unless an entry with the same name and size
is already there. -/
def enqueue (queue : List File) (file : File) : List File :=
  if queue.any (fun qFile => qFile.name == file.name && qFile.size == file.size) then queue
  else queue ++ [file]

/-- File input `change` handler of deck `i`. -/
def fileInputChange (s : State) (i : Fin 2) (files : List File) : State :=
  match files with
  | [] => s
  | first :: _ =>
    let s1 := s.setDeck i ((s.decks i).loadFile first)
    { s1 with automixQueue := files.foldl enqueue s1.automixQueue }

/-- The filter `file.type.startsWith('audio/')`. -/
def isAudio (file : File) : Bool :=
  "audio/".data.isPrefixOf file.type.data

/-- Document `drop` handler; `deckElement` is the deck the drop landed on,
if any. -/
def documentDrop (s : State) (deckElement : Option (Fin 2)) (files : List File) : State :=
  let audioFiles := files.filter isAudio
  match audioFiles with
  | [] => s
  | first :: _ =>
    match deckElement with
    | some i =>
      let s1 := s.setDeck i ((s.decks i).loadFile first)
      { s1 with automixQueue := audioFiles.foldl enqueue s1.automixQueue }
    | none =>
      { s with automixQueue := audioFiles.foldl enqueue s.automixQueue }

/-- A "Load to Deck" button of the rendered playlist: entry `index`, deck `i`. -/
def playlistLoad (s : State) (index : Nat) (i : Fin 2) : State :=
  match s.automixQueue[index]? with
  | some file => s.setDeck i ((s.decks i).loadFile file)
  | none => s

/-- Clear playlist button; `confirmed` is the answer to the confirm dialog. -/
def clearPlaylistClick (s : State) (confirmed : Bool) : State :=
  if confirmed then { s with automixQueue := [], automixQueueIndex := 0 } else s

/-- Sync button of deck `i`.  The decks carry the numbers 1 and 2 by
position, so `deck.deckNumber !== this.deckNumber` is `j ≠ i`. -/
def syncClick (s : State) (i : Fin 2) : State :=
  let this := { s.decks i with isSynced := !(s.decks i).isSynced }
  let s1 := s.setDeck i this
  let qualifies : Fin 2 → Bool := fun j => truthy (s1.decks j).bpm && decide (j ≠ i)
  if this.isSynced && truthy this.bpm && [(0 : Fin 2), 1].any qualifies then
    match ([(0 : Fin 2), 1].find? qualifies).map s1.decks with
    | some otherDeck =>
      if truthy otherDeck.bpm then
        let targetBPM := otherDeck.bpm.getD 0
        let pitch := (targetBPM / this.bpm.getD 0 - 1) * 100
        let w := this.wavesurfer.setPlaybackRate (1 + pitch / 100)
        s1.setDeck i { this with pitch := pitch, wavesurfer := w }
      else s1.setDeck i { this with isSynced := false }
    | none => s1.setDeck i { this with isSynced := false }
  else if !this.isSynced then s1
  else s1.setDeck i { this with isSynced := false }

/-- The test of line 791 on one candidate:
`!otherDeck.audioBuffer || !(name === textContent && size === currentFile.size)`.
`none` stands for the `TypeError` raised by reading `.size` of an undefined
`currentFile`. -/
def candidateOk (otherDeck : Deck) (potentialTrack : File) : Option Bool :=
  if otherDeck.audioBuffer.isNone then some true
  else if potentialTrack.name != otherDeck.trackInfo then some true
  else
    match otherDeck.currentFile with
    | none => none
    | some currentFile => some (!(potentialTrack.size == currentFile.size))

/-- The `for` loop of `loadNextTrackForAutomix` from counter `i` with `n`
iterations left: the chosen index and file, `some none` when the loop ends
without a choice, `none` on a `TypeError`. -/
def scanQueue (queue : List File) (queueIndex : Nat) (otherDeck : Deck) :
    Nat → Nat → Option (Option (Nat × File))
  | _, 0 => some none
  | i, n + 1 =>
    let potentialTrackIndex := (queueIndex + i) % queue.length
    match queue[potentialTrackIndex]? with
    | none => none
    | some potentialTrack =>
      match candidateOk otherDeck potentialTrack with
      | none => none
      | some true => some (some (potentialTrackIndex, potentialTrack))
      | some false => scanQueue queue queueIndex otherDeck (i + 1) n

/-- Function `loadNextTrackForAutomix(deckIndex)`. -/
def loadNextTrackForAutomix (s : State) (deckIndex : Fin 2) : Outcome Bool :=
  if s.automixQueue.length = 0 then .ok false s
  else
    let otherDeck := s.decks (1 - deckIndex)
    match scanQueue s.automixQueue s.automixQueueIndex otherDeck 0 s.automixQueue.length with
    | none => .typeError s
    | some none => .ok false s
    | some (some (potentialTrackIndex, nextTrackFile)) =>
      let s1 := { s with automixQueueIndex := (potentialTrackIndex + 1) % s.automixQueue.length }
      let deckToLoad := { s1.decks deckIndex with currentFile := some nextTrackFile }
      .ok true (s1.setDeck deckIndex (deckToLoad.loadFile nextTrackFile))

/-- The crossfader value that selects deck `i`: `i === 0 ? 0 : 1`. -/
def crossfaderFor (i : Fin 2) : ℚ := if i = 0 then 0 else 1

/-- Start playback on deck `i` and move the crossfader to it. -/
def playOnDeck (s : State) (i : Fin 2) : State :=
  let d := s.decks i
  let s1 := s.setDeck i { d with wavesurfer := d.wavesurfer.play, isPlaying := true }
  { s1 with crossfader := crossfaderFor i }

/-- Function `startAutomix`: the initial play or load, then the monitor
interval is installed. -/
def startAutomix (s : State) : Outcome Unit :=
  let initialActiveDeck := s.decks s.currentActiveDeckIndex
  let first : Outcome Unit :=
    if !initialActiveDeck.isPlaying && decide (initialActiveDeck.wavesurfer.duration > 0) then
      .ok () (playOnDeck s s.currentActiveDeckIndex)
    else if initialActiveDeck.audioBuffer.isNone && decide (s.automixQueue.length > 0) then
      match loadNextTrackForAutomix s s.currentActiveDeckIndex with
      | .typeError s1 => .typeError s1
      | .ok _ s1 =>
        if (s1.decks s1.currentActiveDeckIndex).audioBuffer.isSome then
          .ok () (playOnDeck s1 s1.currentActiveDeckIndex)
        else .ok () s1
    else .ok () s
  match first with
  | .typeError s1 => .typeError s1
  | .ok _ s1 => .ok () { s1 with automixInterval := true }

/-- Automix button `click` handler. -/
def automixClick (s : State) : Outcome Unit :=
  if s.automixInterval then
    .ok () { s with automixInterval := false }
  else if decide (s.automixQueue.length < 2)
      && ((s.decks 0).audioBuffer.isNone || (s.decks 1).audioBuffer.isNone) then
    .ok () s
  else
    startAutomix s

/-- The transition of the monitor callback (lines 713-766) for active deck
`a`: if the inactive deck has content and is not playing, it is started, the
UI interpolation interval is created and the end-of-crossfade timeout set. -/
def beginCrossfade (s : State) (a : Fin 2) : State :=
  let inactiveDeck := s.decks (1 - a)
  if inactiveDeck.audioBuffer.isSome && decide (inactiveDeck.wavesurfer.duration > 0)
      && !inactiveDeck.isPlaying then
    let started := { inactiveDeck with wavesurfer := inactiveDeck.wavesurfer.play,
                                       isPlaying := true }
    let s1 := s.setDeck (1 - a) started
    let ui : CrossfadeUi :=
      { currentCrossfaderValue := s1.crossfader,
        targetCrossfaderValue := crossfaderFor (1 - a),
        stepCount := 0 }
    { s1 with crossfadeUiIntervals := s1.crossfadeUiIntervals ++ [ui],
              flipTimeouts := s1.flipTimeouts ++ [a] }
  else s

/-- Second half of the monitor callback: the crossfade trigger, for active
deck `a`. -/
def tickCrossfade (s : State) (a : Fin 2) : Outcome Unit :=
  let activeDeck := s.decks a
  let remainingTime := activeDeck.wavesurfer.duration - activeDeck.wavesurfer.currentTime
  if decide (remainingTime ≤ crossfadeDuration + 2) && decide (remainingTime > 0.5) then
    let inactiveDeck := s.decks (1 - a)
    if inactiveDeck.audioBuffer.isNone || inactiveDeck.wavesurfer.duration == 0 then
      match loadNextTrackForAutomix s (1 - a) with
      | .typeError s1 => .typeError s1
      | .ok false s1 => .ok () s1
      | .ok true s1 => .ok () (beginCrossfade s1 a)
    else .ok () (beginCrossfade s a)
  else .ok () s

/-- The monitor callback installed by `startAutomix` (runs every 2 s while
the interval is installed). -/
def monitorTick (s : State) : Outcome Unit :=
  if !s.automixInterval then .ok () s
  else
    let a := s.currentActiveDeckIndex
    let activeDeck := s.decks a
    if activeDeck.wavesurfer.duration == 0
        || (!activeDeck.isPlaying && decide (activeDeck.wavesurfer.duration > 0)
            && decide (activeDeck.wavesurfer.currentTime ≥ activeDeck.wavesurfer.duration - 0.1)) then
      let stopped := { activeDeck with wavesurfer := activeDeck.wavesurfer.stop,
                                       isPlaying := false }
      match loadNextTrackForAutomix (s.setDeck a stopped) a with
      | .typeError s1 => .typeError s1
      | .ok true s1 => tickCrossfade (playOnDeck s1 a) a
      | .ok false s1 => .ok () { s1 with automixInterval := false }
    else tickCrossfade s a

/-- One firing of the `k`-th pending UI interpolation interval. -/
def crossfadeUiTick (s : State) (k : Nat) : State :=
  match s.crossfadeUiIntervals[k]? with
  | none => s
  | some ui =>
    let stepCount := ui.stepCount + 1
    if stepCount ≤ steps then
      let interpolatedValue := ui.currentCrossfaderValue
        + (ui.targetCrossfaderValue - ui.currentCrossfaderValue) * ((stepCount : ℚ) / (steps : ℚ))
      { s with crossfader := interpolatedValue,
               crossfadeUiIntervals := s.crossfadeUiIntervals.set k { ui with stepCount := stepCount } }
    else
      { s with crossfader := ui.targetCrossfaderValue,
               crossfadeUiIntervals := s.crossfadeUiIntervals.eraseIdx k }

/-- Firing of the `k`-th pending end-of-crossfade timeout: the deck it
captured is paused and the active index flips. -/
def flipTimeout (s : State) (k : Nat) : State :=
  match s.flipTimeouts[k]? with
  | none => s
  | some a =>
    let s1 := s.setDeck a (s.decks a).pauseTimeout
    { s1 with currentActiveDeckIndex := 1 - s1.currentActiveDeckIndex,
              flipTimeouts := s1.flipTimeouts.eraseIdx k }

/-- Firing of the `k`-th pending 500 ms preview timeout. -/
def pauseTimeout (s : State) (k : Nat) : State :=
  match s.pauseTimeouts[k]? with
  | none => s
  | some i =>
    let s1 := s.setDeck i (s.decks i).pauseTimeout
    { s1 with pauseTimeouts := s1.pauseTimeouts.eraseIdx k }

/-- Cue button of deck `i`, with its timeout bookkeeping. -/
def cueClick (s : State) (i : Fin 2) : State :=
  let r := (s.decks i).cueClick
  let s1 := s.setDeck i r.1
  if r.2 then { s1 with pauseTimeouts := s1.pauseTimeouts ++ [i] } else s1

/-- Hot cue button `cueNum` of deck `i`, with its timeout bookkeeping. -/
def hotCueClick (s : State) (i : Fin 2) (cueNum : String) : State :=
  let r := (s.decks i).hotCueClick cueNum
  let s1 := s.setDeck i r.1
  if r.2 then { s1 with pauseTimeouts := s1.pauseTimeouts ++ [i] } else s1

/-- Everything that can happen to the page: user input, playback engine
callbacks and timers. -/
inductive Event where
  | fileInputChange (i : Fin 2) (files : List File)
  | playPauseClick (i : Fin 2)
  | volumeInput (i : Fin 2) (v : ℚ)
  | pitchInput (i : Fin 2) (v : ℚ)
  | syncClick (i : Fin 2)
  | cueClick (i : Fin 2)
  | loopInClick (i : Fin 2)
  | loopOutClick (i : Fin 2)
  | loopClick (i : Fin 2)
  | loopLengthChange (i : Fin 2) (beats : ℚ)
  | jogMove (i : Fin 2) (deltaX : ℚ)
  | hotCueClick (i : Fin 2) (cueNum : String)
  | clearHotCuesClick (i : Fin 2) (confirmed : Bool)
  | eqInput (i : Fin 2) (band : Fin 3) (value : ℚ)
  | lpfInput (i : Fin 2) (value : ℚ)
  | masterVolumeInput (value : ℚ)
  | crossfaderInput (value : ℚ)
  | automixClick
  | documentDrop (deckElement : Option (Fin 2)) (files : List File)
  | playlistLoad (index : Nat) (i : Fin 2)
  | clearPlaylistClick (confirmed : Bool)
  | readerOnload (i : Fin 2) (file : File) (ok : Bool)
  | wsReady (i : Fin 2)
  | wsFinish (i : Fin 2)
  | wsInteraction (i : Fin 2) (newTime : ℚ)
  | wsPosition (i : Fin 2) (t : ℚ)
  | monitorTick
  | crossfadeUiTick (k : Nat)
  | flipTimeout (k : Nat)
  | pauseTimeout (k : Nat)
  deriving DecidableEq

/-- Apply a deck-local handler to deck `i`. -/
def State.onDeck (s : State) (i : Fin 2) (f : Deck → Deck) : State :=
  s.setDeck i (f (s.decks i))

/-- One callback.  An uncaught exception ends the callback and leaves the
state as it was at the throw. -/
def step (s : State) : Event → State
  | .fileInputChange i files => fileInputChange s i files
  | .playPauseClick i => s.onDeck i Deck.playPauseClick
  | .volumeInput i v => s.onDeck i (fun d => d.volumeInput v)
  | .pitchInput i v => s.onDeck i (fun d => d.pitchInput v)
  | .syncClick i => syncClick s i
  | .cueClick i => cueClick s i
  | .loopInClick i => s.onDeck i Deck.loopInClick
  | .loopOutClick i => s.onDeck i Deck.loopOutClick
  | .loopClick i => s.onDeck i Deck.loopClick
  | .loopLengthChange i beats => s.onDeck i (fun d => d.loopLengthChange beats)
  | .jogMove i deltaX => s.onDeck i (fun d => d.jogMove deltaX)
  | .hotCueClick i cueNum => hotCueClick s i cueNum
  | .clearHotCuesClick i confirmed => s.onDeck i (fun d => d.clearHotCuesClick confirmed)
  | .eqInput i band value => s.onDeck i (fun d => d.eqInput band value)
  | .lpfInput i value => s.onDeck i (fun d => d.lpfInput value)
  | .masterVolumeInput value => { s with masterGain := value }
  | .crossfaderInput value => { s with crossfader := value }
  | .automixClick => (automixClick s).state
  | .documentDrop deckElement files => documentDrop s deckElement files
  | .playlistLoad index i => playlistLoad s index i
  | .clearPlaylistClick confirmed => clearPlaylistClick s confirmed
  | .readerOnload i file ok => s.onDeck i (fun d => d.readerOnload file ok)
  | .wsReady i => s.onDeck i Deck.onReady
  | .wsFinish i => s.onDeck i Deck.onFinish
  | .wsInteraction i newTime => s.onDeck i (fun d => d.onInteraction newTime)
  | .wsPosition i t => s.onDeck i (fun d => d.onPosition t)
  | .monitorTick => (monitorTick s).state
  | .crossfadeUiTick k => crossfadeUiTick s k
  | .flipTimeout k => flipTimeout s k
  | .pauseTimeout k => pauseTimeout s k

/-- Run a sequence of callbacks from state `s`. -/
def run (s : State) (events : List Event) : State :=
  events.foldl step s

/-- The page after `DOMContentLoaded`: empty queue, two fresh decks, no
timers.  `label`, `volume` and `crossfader` are the values the page markup
gives the track labels, volume sliders and crossfader. -/
def initialState (label : String) (volume crossfader : ℚ) : State :=
  { automixQueue := [], automixQueueIndex := 0,
    decks0 := Deck.new label volume, decks1 := Deck.new label volume,
    crossfader := crossfader, masterGain := 0.8,
    automixInterval := false, currentActiveDeckIndex := 0,
    crossfadeUiIntervals := [], flipTimeouts := [], pauseTimeouts := [] }

/-! ## Crossfade curve (over the reals) -/

/-- Curve gain of deck 1 over the reals: the cosine of `value * π / 2`, which
`Math.cos(value * 0.5 * Math.PI)` approximates. -/
noncomputable def gain1 (value : ℝ) : ℝ := Real.cos (value * 0.5 * Real.pi)

/-- Curve gain of deck 2 over the reals: the cosine of `(1 - value) * π / 2`,
which `Math.cos((1 - value) * 0.5 * Math.PI)` approximates. -/
noncomputable def gain2 (value : ℝ) : ℝ := Real.cos ((1 - value) * 0.5 * Real.pi)

/-- Method `Mixer.updateCrossfader(value)` over the reals: the gains written
to the two deck gain nodes, given the two volume slider values. -/
noncomputable def updateCrossfader (value volume1 volume2 : ℝ) : ℝ × ℝ :=
  (gain1 value * volume1, gain2 value * volume2)

/-! ## Crossfade curve in double precision

JavaScript numbers are IEEE 754 doubles: every arithmetic result is the exact
result rounded to the nearest double.  Overflow is left out; the quantities
rounded below are at most 2 in size. -/

/-- Exponent of the spacing of the doubles around `x`: a double carries 53
significant bits, and below `2 ^ (-1022)` the spacing stays `2 ^ (-1074)`. -/
noncomputable def ulpExponent (x : ℝ) : ℤ := max (Int.log 2 |x|) (-1022) - 52

/-- The nearest integer, a tie going to the even neighbour. -/
noncomputable def roundHalfEven (x : ℝ) : ℤ :=
  if Int.fract x < 1 / 2 then ⌊x⌋
  else if 1 / 2 < Int.fract x then ⌊x⌋ + 1
  else if Even ⌊x⌋ then ⌊x⌋ else ⌊x⌋ + 1

/-- The double nearest to the real `x` (round to nearest, ties to even). -/
noncomputable def toDouble (x : ℝ) : ℝ :=
  (roundHalfEven (x / (2 : ℝ) ^ ulpExponent x) : ℝ) * (2 : ℝ) ^ ulpExponent x

/-- The constant `Math.PI`: the double nearest to π, `3.141592653589793`,
which is `884279719003555 * 2 ^ (-48)`. -/
def mathPI : ℚ := 884279719003555 / 281474976710656

/-- Library function `Math.cos` on a double.  ECMAScript fixes
`Math.cos(0) = 1` and asks for an approximation of the cosine elsewhere; it is
taken here as the correctly rounded cosine, which at `Math.PI / 2` is the
`6.123233995736766e-17` that engines return. -/
noncomputable def mathCos (x : ℝ) : ℝ := toDouble (Real.cos x)

/-- Call `parseFloat(slider.value)` on a slider whose value string denotes
the decimal `q`: the double nearest to `q`. -/
noncomputable def parseFloat (q : ℚ) : ℝ := toDouble (q : ℝ)

/-- Curve gain of deck 1 as computed: `Math.cos(value * 0.5 * Math.PI)`. -/
noncomputable def gain1Double (value : ℝ) : ℝ :=
  mathCos (toDouble (toDouble (value * 0.5) * (mathPI : ℝ)))

/-- Curve gain of deck 2 as computed: `Math.cos((1 - value) * 0.5 * Math.PI)`. -/
noncomputable def gain2Double (value : ℝ) : ℝ :=
  mathCos (toDouble (toDouble (toDouble (1 - value) * 0.5) * (mathPI : ℝ)))

/-- Method `Mixer.updateCrossfader(value)` as computed: the two numbers
assigned to `gain.value` of the deck gain nodes, given the parsed volume
slider values. -/
noncomputable def updateCrossfaderDouble (value volume1 volume2 : ℝ) : ℝ × ℝ :=
  (toDouble (gain1Double value * volume1), toDouble (gain2Double value * volume2))

/-! ## Properties stated by the specification -/

/-- No two queue entries share their `(name, size)` pair. -/
def NoDupKeys (queue : List File) : Prop := (queue.map File.key).Nodup

/-- The tracks the specification counts as available for automix: those
loaded (decoded) on the two decks together with those in the queue, each
`(name, size)` pair counted once. -/
def availableTracks (s : State) : List (String × Nat) :=
  ((s.decks0.audioBuffer.toList ++ s.decks1.audioBuffer.toList ++ s.automixQueue).map
    File.key).dedup

/-- The selection loop identifies candidate `t` with the track on the other
deck: that deck has decoded audio, the candidate's name is its label and the
candidate's size is that of its `currentFile` record. -/
def sameAsOtherDeck (otherDeck : Deck) (t : File) : Prop :=
  otherDeck.audioBuffer ≠ none ∧ t.name = otherDeck.trackInfo
    ∧ ∃ currentFile, otherDeck.currentFile = some currentFile ∧ t.size = currentFile.size

/-- The file the playback engine of deck `i` currently holds. -/
def State.loadedTrack (s : State) (i : Fin 2) : Option File :=
  (s.decks i).wavesurfer.source

/-! ## Concrete inputs -/

/-- A 200 s track. -/
def trackX : File := { name := "x.mp3", size := 100, type := "audio/mpeg", duration := 200 }

/-- A 90 s track. -/
def trackY : File := { name := "y.mp3", size := 200, type := "audio/mpeg", duration := 90 }

/-- A 60 s track. -/
def trackZ : File := { name := "z.mp3", size := 300, type := "audio/mpeg", duration := 60 }

/-- A 10 s track. -/
def trackT : File := { name := "t.mp3", size := 400, type := "audio/mpeg", duration := 10 }

/-- The page right after loading, sliders at full volume, crossfader centred. -/
def page : State := initialState "No track loaded" 1 (1 / 2)

/-- The state of the specification's sync example: deck 1 at 120, deck 2 at 140. -/
def syncExample : State :=
  let s := page
  { s with decks0 := { s.decks0 with bpm := some 120 },
           decks1 := { s.decks1 with bpm := some 140 } }

/-- A deck that is looping although its loop points are out of order. -/
def loopExample : Deck :=
  { Deck.new "" 1 with isLooping := true, loopStart := some 5, loopEnd := some 3 }

/-- Automix loads `trackZ` into deck 1 and is stopped; the user then loads
`trackX` into deck 1 from the playlist, plays it to 5 s before its end and
starts automix again. -/
def staleTrace : List Event :=
  [.documentDrop none [trackZ, trackX, trackY], .automixClick, .automixClick,
   .playlistLoad 1 0, .readerOnload 0 trackZ true, .readerOnload 0 trackX true, .wsReady 0,
   .playPauseClick 0, .wsPosition 0 195, .automixClick]

/-- The user picks `trackX` and `trackY` with the file input of deck 2 and
`trackX` is decoded there. -/
def userLoadTrace : List Event :=
  [.fileInputChange 1 [trackX, trackY], .readerOnload 1 trackX true]

/-- The user drops `trackX` on deck 1, clears the playlist once it is decoded
and drops `trackY` outside the decks. -/
def oneOnDeckOneQueuedTrace : List Event :=
  [.documentDrop (some 0) [trackX], .readerOnload 0 trackX true, .clearPlaylistClick true,
   .documentDrop none [trackY]]

/-- Automix over the queue `[trackX, trackY]` up to the monitor tick that
starts the crossfade from deck 1 to deck 2. -/
def crossfadeTrace : List Event :=
  [.documentDrop none [trackX, trackY], .automixClick, .wsReady 0, .readerOnload 0 trackX true,
   .playPauseClick 0, .wsPosition 0 195, .monitorTick, .readerOnload 1 trackY true, .wsReady 1,
   .monitorTick]

/-- The user loads `trackT` (10 s, tempo 125) on deck 1, plays it, loops
`[0, 2]` and lets playback reach 9 s. -/
def loopingTrace : List Event :=
  [.fileInputChange 0 [trackT], .wsReady 0, .readerOnload 0 trackT true, .playPauseClick 0,
   .loopInClick 0, .wsPosition 0 2, .loopOutClick 0, .loopClick 0, .wsPosition 0 9]

/-! ## Further definitions for the deck and transition properties -/

/-- The specification's tempo formula:
`clamp(round(120 + (duration mod 20) * 0.5), 80, 180)`. -/
def tempoFormula (duration : ℚ) : ℚ :=
  max 80 (min ((round (120 + (duration - 20 * ⌊duration / 20⌋) * (1 / 2)) : ℤ) : ℚ) 180)

/-- The gain `updateCrossfader` writes to the gain node of deck `i` for the
state's crossfader value and volume sliders, over the reals. -/
noncomputable def State.deckGain (s : State) (i : Fin 2) : ℝ :=
  if i = 0 then
    (updateCrossfader (s.crossfader : ℝ) (s.decks0.volumeSlider : ℝ) (s.decks1.volumeSlider : ℝ)).1
  else
    (updateCrossfader (s.crossfader : ℝ) (s.decks0.volumeSlider : ℝ) (s.decks1.volumeSlider : ℝ)).2

/-- The number `updateCrossfader` assigns to the gain node of deck `i` for
the state's crossfader value and volume sliders, in double precision. -/
noncomputable def State.deckGainDouble (s : State) (i : Fin 2) : ℝ :=
  if i = 0 then
    (updateCrossfaderDouble (parseFloat s.crossfader) (parseFloat s.decks0.volumeSlider)
      (parseFloat s.decks1.volumeSlider)).1
  else
    (updateCrossfaderDouble (parseFloat s.crossfader) (parseFloat s.decks0.volumeSlider)
      (parseFloat s.decks1.volumeSlider)).2

/-- The fractions the cue button handler passes to `seekTo`, in order: one
seek, and a second with the same argument when the deck is already playing. -/
def Deck.cueSeeks (d : Deck) : List ℚ :=
  if decide (d.wavesurfer.duration > 0) then
    if !d.isPlaying then [d.cuePoint / d.wavesurfer.duration]
    else [d.cuePoint / d.wavesurfer.duration, d.cuePoint / d.wavesurfer.duration]
  else []

/-- The callbacks that carry a crossfade begun by a monitor tick in state `s`
to its end: the 50 firings of its UI interpolation interval and its
end-of-crossfade timeout, the timeout firing after `j` of them. -/
def completionEvents (s : State) (j : Nat) : List Event :=
  List.replicate j (.crossfadeUiTick s.crossfadeUiIntervals.length)
    ++ [.flipTimeout s.flipTimeouts.length]
    ++ List.replicate (steps - j) (.crossfadeUiTick s.crossfadeUiIntervals.length)

/-- The user loads `trackT` (10 s) on deck 1, plays it and playback reaches 3 s. -/
def playingTrace : List Event :=
  [.fileInputChange 0 [trackT], .wsReady 0, .readerOnload 0 trackT true, .playPauseClick 0,
   .wsPosition 0 3]

/-- The user loads `trackT` on deck 1, plays it, and picks `trackX` for the
same deck while it plays. -/
def reloadWhilePlayingTrace : List Event :=
  [.fileInputChange 0 [trackT], .wsReady 0, .playPauseClick 0, .fileInputChange 0 [trackX]]

/-- Automix over the queue `[trackX, trackY]` with deck 1 playing `trackX`
at 100 s of 200 s. -/
def midTrackTrace : List Event :=
  [.documentDrop none [trackX, trackY], .automixClick, .wsReady 0, .readerOnload 0 trackX true,
   .playPauseClick 0, .wsPosition 0 100]

/-- The prefix of `crossfadeTrace` before the monitor tick that starts the
crossfade: deck 1 plays `trackX` 5 s before its end, deck 2 holds `trackY`. -/
def beforeCrossfadeTrace : List Event :=
  [.documentDrop none [trackX, trackY], .automixClick, .wsReady 0, .readerOnload 0 trackX true,
   .playPauseClick 0, .wsPosition 0 195, .monitorTick, .readerOnload 1 trackY true, .wsReady 1]

/-- The user loads `trackX` (200 s) on deck 1, clicks the waveform at 150 s,
then loads `trackY` (90 s) on the same deck. -/
def staleCueTrace : List Event :=
  [.fileInputChange 0 [trackX], .wsReady 0, .wsInteraction 0 150, .fileInputChange 0 [trackY],
   .wsReady 0]

/-! ## Further definitions for the queue cursor and selection properties -/

/-- The queue cursor is a valid read position: 0 on an empty queue, below
the queue length otherwise. -/
def CursorValid (s : State) : Prop :=
  (s.automixQueue = [] ∧ s.automixQueueIndex = 0) ∨ s.automixQueueIndex < s.automixQueue.length

/-- The user drops `trackX` and `trackY` on deck 1, plays `trackX` to 5 s
before its end and starts automix. -/
def tickFaultTrace : List Event :=
  [.documentDrop (some 0) [trackX, trackY], .readerOnload 0 trackX true, .wsReady 0,
   .playPauseClick 0, .wsPosition 0 195, .automixClick]

/-- The user drops three tracks outside the decks, loads `trackY` on deck 2
with its playlist button and, once it is decoded, starts automix (which
loads `trackX` into deck 1 and leaves the cursor at 1). -/
def playlistLoadTrace : List Event :=
  [.documentDrop none [trackX, trackY, trackZ], .playlistLoad 1 1, .readerOnload 1 trackY true,
   .automixClick]

/-- The user loads `trackT` (10 s) on deck 1 and `trackX` (200 s) on deck 2;
both become ready. -/
def twoLoadedTrace : List Event :=
  [.fileInputChange 0 [trackT], .wsReady 0, .fileInputChange 1 [trackX], .wsReady 1]

/-- The user picks `trackX` and `trackY` with the file input of deck 1,
`trackX` is decoded and ready, the user sets the volume fader of deck 2 to
0.6 and starts automix, which plays deck 1 and moves the crossfader to it. -/
def endpointTrace : List Event :=
  [.fileInputChange 0 [trackX, trackY], .readerOnload 0 trackX true, .wsReady 0,
   .volumeInput 1 (3 / 5), .automixClick]

/-! ## Basic facts about the state accessors -/

@[simp] theorem decks_setDeck_same (s : State) (i : Fin 2) (d : Deck) :
    (s.setDeck i d).decks i = d := by
  unfold State.setDeck State.decks
  split <;> simp_all

theorem decks_setDeck_other (s : State) (i j : Fin 2) (d : Deck) (h : j ≠ i) :
    (s.setDeck i d).decks j = s.decks j := by
  unfold State.setDeck State.decks
  split <;> split <;> simp_all
  all_goals omega

theorem other_ne (i : Fin 2) : (1 - i) ≠ i := by
  have h : ∀ j : Fin 2, (1 - j) ≠ j := by decide
  exact h i

@[simp] theorem decks_setDeck_opposite (s : State) (i : Fin 2) (d : Deck) :
    (s.setDeck i d).decks (1 - i) = s.decks (1 - i) :=
  decks_setDeck_other s i (1 - i) d (other_ne i)

@[simp] theorem setDeck_automixQueue (s : State) (i : Fin 2) (d : Deck) :
    (s.setDeck i d).automixQueue = s.automixQueue := by
  unfold State.setDeck; split <;> rfl

@[simp] theorem setDeck_automixQueueIndex (s : State) (i : Fin 2) (d : Deck) :
    (s.setDeck i d).automixQueueIndex = s.automixQueueIndex := by
  unfold State.setDeck; split <;> rfl

@[simp] theorem setDeck_automixInterval (s : State) (i : Fin 2) (d : Deck) :
    (s.setDeck i d).automixInterval = s.automixInterval := by
  unfold State.setDeck; split <;> rfl

@[simp] theorem setDeck_currentActiveDeckIndex (s : State) (i : Fin 2) (d : Deck) :
    (s.setDeck i d).currentActiveDeckIndex = s.currentActiveDeckIndex := by
  unfold State.setDeck; split <;> rfl

@[simp] theorem onDeck_automixQueue (s : State) (i : Fin 2) (f : Deck → Deck) :
    (s.onDeck i f).automixQueue = s.automixQueue := by
  simp [State.onDeck]

/-! ## C1: equal-power crossfade curve -/

/-- C1: over the reals, for every crossfader position `x` in `[0, 1]` the two
curve gains of `updateCrossfader` satisfy `gain1 x ^ 2 + gain2 x ^ 2 = 1`. -/
theorem crossfader_equal_power (x : ℝ) (_h0 : 0 ≤ x) (_h1 : x ≤ 1) :
    gain1 x ^ 2 + gain2 x ^ 2 = 1 := by
  have h : (1 - x) * 0.5 * Real.pi = Real.pi / 2 - x * 0.5 * Real.pi := by ring
  unfold gain1 gain2
  rw [h, Real.cos_pi_div_two_sub]
  exact Real.cos_sq_add_sin_sq _

/-- C1 at the centre position `x = 1/2`. -/
theorem crossfader_equal_power_witness :
    (0 : ℝ) ≤ 1 / 2 ∧ (1 / 2 : ℝ) ≤ 1 ∧ gain1 (1 / 2) ^ 2 + gain2 (1 / 2) ^ 2 = 1 :=
  ⟨by norm_num, by norm_num, crossfader_equal_power (1 / 2) (by norm_num) (by norm_num)⟩

/-! ## C7, C8: sync -/

/-- C7: with sync off, this deck at known positive tempo `thisTempo` and the
other deck at known positive tempo `otherTempo`, the sync button turns sync
on, sets the pitch to `(otherTempo / thisTempo - 1) * 100` and the playback
rate to `1 + pitch / 100`, so that `thisTempo * (1 + pitch / 100) = otherTempo`. -/
theorem sync_sets_pitch (s : State) (i : Fin 2) (thisTempo otherTempo : ℚ)
    (hoff : (s.decks i).isSynced = false)
    (hthis : (s.decks i).bpm = some thisTempo) (hpos : 0 < thisTempo)
    (hother : (s.decks (1 - i)).bpm = some otherTempo) (hpos2 : 0 < otherTempo) :
    ((syncClick s i).decks i).isSynced = true
    ∧ ((syncClick s i).decks i).pitch = (otherTempo / thisTempo - 1) * 100
    ∧ ((syncClick s i).decks i).wavesurfer.playbackRate
        = 1 + ((syncClick s i).decks i).pitch / 100
    ∧ thisTempo * (1 + ((syncClick s i).decks i).pitch / 100) = otherTempo := by
  have h1 : ∀ d, ((s.setDeck i d).decks (1 - i)) = s.decks (1 - i) :=
    fun d => decks_setDeck_other s i (1 - i) d (other_ne i)
  have ha : thisTempo ≠ 0 := ne_of_gt hpos
  have hb : otherTempo ≠ 0 := ne_of_gt hpos2
  fin_cases i <;>
  · simp at hother h1 hoff hthis
    simp [syncClick, hoff, hthis, hother, truthy, ha, hb, h1, WaveSurfer.setPlaybackRate]
    field_simp

/-- C7 on the specification's example: tempos 120 and 140 give pitch `50/3`. -/
theorem sync_sets_pitch_witness :
    (syncExample.decks 0).isSynced = false
    ∧ (syncExample.decks 0).bpm = some 120
    ∧ (syncExample.decks (1 - 0)).bpm = some 140
    ∧ ((syncClick syncExample 0).decks 0).isSynced = true
    ∧ ((syncClick syncExample 0).decks 0).pitch = 50 / 3
    ∧ ((syncClick syncExample 0).decks 0).wavesurfer.playbackRate = 1 + (50 / 3) / 100
    ∧ (120 : ℚ) * (1 + ((syncClick syncExample 0).decks 0).pitch / 100) = 140 := by
  have h := sync_sets_pitch syncExample 0 120 140 (by decide!) (by decide!) (by norm_num)
    (by decide!) (by norm_num)
  have hp : ((syncClick syncExample 0).decks 0).pitch = 50 / 3 := by
    rw [h.2.1]; norm_num
  refine ⟨by decide!, by decide!, by decide!, h.1, hp, ?_, h.2.2.2⟩
  rw [h.2.2.1, hp]

/-- C8: when sync is toggled on (it was off) for a deck whose own tempo is
unknown, or while the other deck has no known tempo, the toggle is rejected:
afterwards `isSynced` is false and pitch and playback rate are unchanged. -/
theorem sync_rejected_without_tempo (s : State) (i : Fin 2)
    (hoff : (s.decks i).isSynced = false)
    (hno : (s.decks i).bpm = none ∨ (s.decks (1 - i)).bpm = none) :
    ((syncClick s i).decks i).isSynced = false
    ∧ ((syncClick s i).decks i).pitch = (s.decks i).pitch
    ∧ ((syncClick s i).decks i).wavesurfer.playbackRate
        = (s.decks i).wavesurfer.playbackRate := by
  have h1 : ∀ d, ((s.setDeck i d).decks (1 - i)) = s.decks (1 - i) :=
    fun d => decks_setDeck_other s i (1 - i) d (other_ne i)
  rcases hno with hno | hno
  · fin_cases i <;>
    · simp at h1 hoff hno
      simp [syncClick, hoff, hno, truthy, h1]
  · fin_cases i <;>
    · simp at h1 hoff hno
      simp [syncClick, hoff, hno, truthy, h1]

/-- C8 on the freshly loaded page: no deck has a tempo yet. -/
theorem sync_rejected_without_tempo_witness :
    (page.decks 0).isSynced = false
    ∧ (page.decks 0).bpm = none
    ∧ ((syncClick page 0).decks 0).isSynced = false
    ∧ ((syncClick page 0).decks 0).pitch = (page.decks 0).pitch := by
  have h := sync_rejected_without_tempo page 0 (by decide!) (Or.inl (by decide!))
  exact ⟨by decide!, by decide!, h.1, h.2.1⟩

/-! ## C9: loop toggle with invalid loop points -/

/-- C9: if `loopStart` or `loopEnd` is unset, or `loopStart ≥ loopEnd`, the
loop button leaves `isLooping = false` whatever it was before and leaves the
playback engine, hence its regions, untouched: no loop region is created. -/
theorem loop_toggle_rejected (d : Deck)
    (h : d.loopStart = none ∨ d.loopEnd = none
      ∨ ∃ a b, d.loopStart = some a ∧ d.loopEnd = some b ∧ b ≤ a) :
    d.loopClick.isLooping = false
    ∧ d.loopClick.wavesurfer.regions = d.wavesurfer.regions
    ∧ d.loopClick.wavesurfer = d.wavesurfer := by
  have hv : d.loopPointsValid = false := by
    unfold Deck.loopPointsValid
    rcases h with h | h | ⟨a, b, ha, hb, hab⟩
    · simp [h]
    · cases hs : d.loopStart <;> simp [h]
    · simp [ha, hb, not_lt.mpr hab]
  simp [Deck.loopClick, hv]

/-- C9 on a deck with `loopStart = 5`, `loopEnd = 3` and looping on. -/
theorem loop_toggle_rejected_witness :
    loopExample.loopStart = some 5 ∧ loopExample.loopEnd = some 3
    ∧ loopExample.isLooping = true
    ∧ loopExample.loopClick.isLooping = false
    ∧ loopExample.loopClick.wavesurfer.regions = loopExample.wavesurfer.regions := by
  have h := loop_toggle_rejected loopExample
    (Or.inr (Or.inr ⟨5, 3, by decide!, by decide!, by norm_num⟩))
  exact ⟨by decide!, by decide!, by decide!, h.1, h.2.1⟩

/-! ## C3: the queue never holds a duplicate -/

theorem enqueue_noDupKeys (queue : List File) (file : File) (h : NoDupKeys queue) :
    NoDupKeys (enqueue queue file) := by
  unfold enqueue
  split
  · exact h
  · rename_i hany
    unfold NoDupKeys at *
    rw [List.map_append, List.nodup_append]
    refine ⟨h, by simp, ?_⟩
    intro k hk hk2
    simp only [List.map_cons, List.map_nil, List.mem_singleton] at hk2
    subst hk2
    rcases List.mem_map.mp hk with ⟨q, hq, hkey⟩
    apply hany
    rw [List.any_eq_true]
    refine ⟨q, hq, ?_⟩
    simp only [File.key, Prod.mk.injEq] at hkey
    simp [hkey.1, hkey.2]

theorem foldl_enqueue_noDupKeys (files queue : List File) (h : NoDupKeys queue) :
    NoDupKeys (files.foldl enqueue queue) := by
  induction files generalizing queue with
  | nil => exact h
  | cons f rest ih => exact ih _ (enqueue_noDupKeys queue f h)


/-- The three ways `loadNextTrackForAutomix` can end. -/
theorem loadNext_cases (s : State) (i : Fin 2) :
    loadNextTrackForAutomix s i = .ok false s
    ∨ loadNextTrackForAutomix s i = .typeError s
    ∨ ∃ idx file, loadNextTrackForAutomix s i = .ok true
        (State.setDeck { s with automixQueueIndex := (idx + 1) % s.automixQueue.length } i
          (({ s.decks i with currentFile := some file }).loadFile file)) := by
  unfold loadNextTrackForAutomix
  by_cases hlen : s.automixQueue.length = 0
  · simp [hlen]
  · simp only [hlen, if_false]
    cases hsc : scanQueue s.automixQueue s.automixQueueIndex (s.decks (1 - i)) 0
        s.automixQueue.length with
    | none => simp
    | some r =>
      cases r with
      | none => simp
      | some p =>
        obtain ⟨idx, file⟩ := p
        refine Or.inr (Or.inr ⟨idx, file, ?_⟩)
        rfl

theorem loadNext_automixQueue (s : State) (i : Fin 2) :
    (loadNextTrackForAutomix s i).state.automixQueue = s.automixQueue := by
  rcases loadNext_cases s i with h | h | ⟨idx, file, h⟩ <;> rw [h] <;> simp [Outcome.state]

@[simp] theorem playOnDeck_automixQueue (s : State) (i : Fin 2) :
    (playOnDeck s i).automixQueue = s.automixQueue := by
  simp [playOnDeck]

theorem startAutomix_automixQueue (s : State) :
    (startAutomix s).state.automixQueue = s.automixQueue := by
  have h := loadNext_automixQueue s s.currentActiveDeckIndex
  unfold startAutomix
  simp only
  by_cases h1 : (!(s.decks s.currentActiveDeckIndex).isPlaying
      && decide ((s.decks s.currentActiveDeckIndex).wavesurfer.duration > 0)) = true
  · simp [h1, Outcome.state]
  · by_cases h2 : ((s.decks s.currentActiveDeckIndex).audioBuffer.isNone
        && decide (s.automixQueue.length > 0)) = true
    · simp only [h1, h2, if_true, if_false]
      cases hl : loadNextTrackForAutomix s s.currentActiveDeckIndex with
      | typeError s1 => rw [hl] at h; simpa [Outcome.state] using h
      | ok v s1 =>
        rw [hl] at h
        simp only [Outcome.state] at h
        by_cases h3 : (s1.decks s1.currentActiveDeckIndex).audioBuffer.isSome = true
        · simp [h3, Outcome.state, h]
        · simp [h3, Outcome.state, h]
    · simp [h1, h2, Outcome.state]

theorem automixClick_automixQueue (s : State) :
    (automixClick s).state.automixQueue = s.automixQueue := by
  unfold automixClick
  split
  · simp [Outcome.state]
  · split
    · simp [Outcome.state]
    · exact startAutomix_automixQueue s

@[simp] theorem beginCrossfade_automixQueue (s : State) (a : Fin 2) :
    (beginCrossfade s a).automixQueue = s.automixQueue := by
  unfold beginCrossfade
  simp only
  split <;> simp

theorem tickCrossfade_automixQueue (s : State) (a : Fin 2) :
    (tickCrossfade s a).state.automixQueue = s.automixQueue := by
  have h := loadNext_automixQueue s (1 - a)
  unfold tickCrossfade
  simp only
  split
  · split
    · cases hl : loadNextTrackForAutomix s (1 - a) with
      | typeError s1 => rw [hl] at h; simpa [Outcome.state] using h
      | ok v s1 =>
        rw [hl] at h
        simp only [Outcome.state] at h
        cases v <;> simp [Outcome.state, h]
    · simp [Outcome.state]
  · simp [Outcome.state]

theorem monitorTick_automixQueue (s : State) :
    (monitorTick s).state.automixQueue = s.automixQueue := by
  unfold monitorTick
  split
  · simp [Outcome.state]
  · simp only
    split
    · have h := loadNext_automixQueue (s.setDeck s.currentActiveDeckIndex
        { s.decks s.currentActiveDeckIndex with
            wavesurfer := (s.decks s.currentActiveDeckIndex).wavesurfer.stop,
            isPlaying := false }) s.currentActiveDeckIndex
      cases hl : loadNextTrackForAutomix (s.setDeck s.currentActiveDeckIndex
        { s.decks s.currentActiveDeckIndex with
            wavesurfer := (s.decks s.currentActiveDeckIndex).wavesurfer.stop,
            isPlaying := false }) s.currentActiveDeckIndex with
      | typeError s1 => rw [hl] at h; simpa [Outcome.state] using h
      | ok v s1 =>
        rw [hl] at h
        simp only [Outcome.state, setDeck_automixQueue] at h
        cases v
        · simpa [Outcome.state] using h
        · simp only
          rw [tickCrossfade_automixQueue]; simp [h]
    · exact tickCrossfade_automixQueue s _

theorem step_noDupKeys (s : State) (e : Event) (h : NoDupKeys s.automixQueue) :
    NoDupKeys (step s e).automixQueue := by
  cases e with
  | fileInputChange i files =>
    simp only [step, fileInputChange]
    cases files with
    | nil => exact h
    | cons f rest => exact foldl_enqueue_noDupKeys _ _ (by simpa using h)
  | documentDrop deckElement files =>
    simp only [step, documentDrop]
    split
    · exact h
    · split
      · exact foldl_enqueue_noDupKeys _ _ (by simpa using h)
      · exact foldl_enqueue_noDupKeys _ _ (by simpa using h)
  | clearPlaylistClick confirmed =>
    simp only [step, clearPlaylistClick]
    split
    · simp [NoDupKeys]
    · exact h
  | automixClick => simp only [step]; rw [automixClick_automixQueue]; exact h
  | monitorTick => simp only [step]; rw [monitorTick_automixQueue]; exact h
  | syncClick i =>
    have : (syncClick s i).automixQueue = s.automixQueue := by
      unfold syncClick
      simp only
      split
      · split
        · split <;> simp
        · simp
      · split <;> simp
    simp only [step]; rw [this]; exact h
  | cueClick i =>
    have : (cueClick s i).automixQueue = s.automixQueue := by
      unfold cueClick; simp only; split <;> simp
    simp only [step]; rw [this]; exact h
  | hotCueClick i c =>
    have : (hotCueClick s i c).automixQueue = s.automixQueue := by
      unfold hotCueClick; simp only; split <;> simp
    simp only [step]; rw [this]; exact h
  | playlistLoad index i =>
    have : (playlistLoad s index i).automixQueue = s.automixQueue := by
      unfold playlistLoad; split <;> simp
    simp only [step]; rw [this]; exact h
  | crossfadeUiTick k =>
    have : (crossfadeUiTick s k).automixQueue = s.automixQueue := by
      unfold crossfadeUiTick; split
      · rfl
      · simp only; split <;> rfl
    simp only [step]; rw [this]; exact h
  | flipTimeout k =>
    have : (flipTimeout s k).automixQueue = s.automixQueue := by
      unfold flipTimeout; split <;> simp
    simp only [step]; rw [this]; exact h
  | pauseTimeout k =>
    have : (pauseTimeout s k).automixQueue = s.automixQueue := by
      unfold pauseTimeout; split <;> simp
    simp only [step]; rw [this]; exact h
  | _ => simpa [step] using h

theorem run_noDupKeys (events : List Event) (s : State) (h : NoDupKeys s.automixQueue) :
    NoDupKeys (run s events).automixQueue := by
  induction events generalizing s with
  | nil => exact h
  | cons e rest ih => exact ih (step s e) (step_noDupKeys s e h)

/-- C3: from the freshly loaded page, after any sequence of callbacks (file
input, drop on a deck or elsewhere, track selection by automix, clear and all
others) the queue holds no two entries with the same `(name, size)` pair; and
two files of identical name and size, offered together to the file input of
either deck, leave one queue entry. -/
theorem queue_never_has_duplicates (label : String) (volume crossfader : ℚ)
    (events : List Event) :
    NoDupKeys (run (initialState label volume crossfader) events).automixQueue
    ∧ ∀ (i : Fin 2) (name : String) (size : Nat) (type1 type2 : String) (d1 d2 : ℚ),
        (run (initialState label volume crossfader)
          [.fileInputChange i [⟨name, size, type1, d1⟩, ⟨name, size, type2, d2⟩]]).automixQueue
          = [⟨name, size, type1, d1⟩] := by
  refine ⟨run_noDupKeys events _ (by simp [initialState, NoDupKeys]), ?_⟩
  intro i name size type1 type2 d1 d2
  simp [run, step, fileInputChange, enqueue, initialState]

/-! ## C5: the automix start guard -/

theorem startAutomix_installs (s s1 : State) (v : Unit) (h : startAutomix s = .ok v s1) :
    s1.automixInterval = true := by
  unfold startAutomix at h
  simp only at h
  split at h
  · simp at h
  · simp only [Outcome.ok.injEq, true_and] at h
    rw [← h]

/-- C5 (counterexample): with `trackX` decoded on deck 1, deck 2 empty and
`trackY` alone in the queue, two tracks are available, yet the start request
is rejected: the handler returns with the state unchanged and no interval. -/
theorem automix_start_rejected_with_two_available :
    (run page oneOnDeckOneQueuedTrace).automixInterval = false
    ∧ availableTracks (run page oneOnDeckOneQueuedTrace) = [trackX.key, trackY.key]
    ∧ automixClick (run page oneOnDeckOneQueuedTrace) = .ok () (run page oneOnDeckOneQueuedTrace)
    ∧ ¬ (automixClick (run page oneOnDeckOneQueuedTrace)
            = .ok () (run page oneOnDeckOneQueuedTrace)
          ↔ (availableTracks (run page oneOnDeckOneQueuedTrace)).length < 2) := by
  decide!

/-- C5 (amended): with no monitor interval installed, the automix button
rejects the request (returns with the state unchanged, scheduler idle)
exactly when the queue holds fewer than two entries and at least one of the
two decks has no decoded audio; otherwise it runs `startAutomix`, and whenever
that returns normally the monitor interval is installed. -/
theorem automix_start_rejected_iff (s : State) (hidle : s.automixInterval = false) :
    (automixClick s = .ok () s ↔
      (s.automixQueue.length < 2
        ∧ ((s.decks 0).audioBuffer = none ∨ (s.decks 1).audioBuffer = none)))
    ∧ (automixClick s ≠ .ok () s →
        automixClick s = startAutomix s
        ∧ ∀ s1, automixClick s = .ok () s1 → s1.automixInterval = true) := by
  have hstart : startAutomix s ≠ .ok () s := by
    intro h
    have := startAutomix_installs s s () h
    rw [hidle] at this
    exact Bool.false_ne_true this
  by_cases hg : s.automixQueue.length < 2
      ∧ ((s.decks 0).audioBuffer = none ∨ (s.decks 1).audioBuffer = none)
  · have hrej : automixClick s = .ok () s := by
      unfold automixClick
      rcases hg with ⟨h1, h2⟩
      simp [hidle, h1, h2]
    exact ⟨⟨fun _ => hg, fun _ => hrej⟩, fun h => absurd hrej h⟩
  · have hrun : automixClick s = startAutomix s := by
      unfold automixClick
      simp only [hidle, Bool.false_eq_true, if_false]
      rw [if_neg]
      simpa [Option.isNone_iff_eq_none] using hg
    refine ⟨⟨fun h => absurd (hrun ▸ h) hstart, fun h => absurd h hg⟩, fun _ => ⟨hrun, ?_⟩⟩
    intro s1 h1
    rw [hrun] at h1
    exact startAutomix_installs s s1 () h1

/-- C5 (amended) on the freshly loaded page: empty queue, empty decks. -/
theorem automix_start_rejected_iff_witness :
    page.automixInterval = false ∧ automixClick page = .ok () page := by
  refine ⟨by decide!, ?_⟩
  exact (automix_start_rejected_iff page (by decide!)).1.2 ⟨by decide!, Or.inl (by decide!)⟩

/-! ## C6: stopping automix -/

/-- C6 (counterexample): automix is stopped right after a monitor tick began
a crossfade.  The monitor interval is gone, but the crossfade's UI
interpolation interval still fires and moves the crossfader from `1/2` to
`51/100`, and its end-of-crossfade timeout still fires, pausing deck 1 and
flipping the active deck index. -/
theorem automix_stop_leaves_crossfade_timers :
    (run page crossfadeTrace).automixInterval = true
    ∧ (run page (crossfadeTrace ++ [.automixClick])).automixInterval = false
    ∧ (run page (crossfadeTrace ++ [.automixClick])).crossfadeUiIntervals ≠ []
    ∧ (run page (crossfadeTrace ++ [.automixClick])).flipTimeouts ≠ []
    ∧ (run page (crossfadeTrace ++ [.automixClick])).crossfader = 1 / 2
    ∧ (run page (crossfadeTrace ++ [.automixClick, .crossfadeUiTick 0])).crossfader = 51 / 100
    ∧ (run page (crossfadeTrace ++ [.automixClick])).currentActiveDeckIndex = 0
    ∧ ((run page (crossfadeTrace ++ [.automixClick])).decks 0).isPlaying = true
    ∧ (run page (crossfadeTrace ++ [.automixClick, .flipTimeout 0])).currentActiveDeckIndex = 1
    ∧ ((run page (crossfadeTrace ++ [.automixClick, .flipTimeout 0])).decks 0).isPlaying = false := by
  decide!

/-- C6 (amended): with the monitor interval installed, the automix button
cancels the monitor loop and nothing else: the monitor callback no longer
acts, the decks are untouched, and the pending UI interpolation intervals and
end-of-crossfade timeouts stay pending and fire exactly as they would have
without the stop. -/
theorem automix_stop_cancels_monitor_only (s : State) (hrun : s.automixInterval = true) :
    automixClick s = .ok () { s with automixInterval := false }
    ∧ monitorTick (automixClick s).state = .ok () (automixClick s).state
    ∧ (automixClick s).state.crossfadeUiIntervals = s.crossfadeUiIntervals
    ∧ (automixClick s).state.flipTimeouts = s.flipTimeouts
    ∧ (∀ k, (crossfadeUiTick (automixClick s).state k).crossfader = (crossfadeUiTick s k).crossfader)
    ∧ (∀ k, (flipTimeout (automixClick s).state k).currentActiveDeckIndex
          = (flipTimeout s k).currentActiveDeckIndex)
    ∧ (∀ i, (automixClick s).state.decks i = s.decks i) := by
  have h : automixClick s = .ok () { s with automixInterval := false } := by
    unfold automixClick; simp [hrun]
  rw [h]
  refine ⟨rfl, ?_, rfl, rfl, ?_, ?_, ?_⟩
  · simp [Outcome.state, monitorTick]
  · intro k
    simp only [Outcome.state, crossfadeUiTick]
    split <;> [rfl; (split <;> rfl)]
  · intro k
    simp only [Outcome.state, flipTimeout]
    split
    · rfl
    · simp
  · intro i
    simp [Outcome.state, State.decks]

/-- C6 (amended) on the state in which a crossfade has just begun. -/
theorem automix_stop_cancels_monitor_only_witness :
    (run page crossfadeTrace).automixInterval = true
    ∧ (automixClick (run page crossfadeTrace)).state.automixInterval = false
    ∧ (automixClick (run page crossfadeTrace)).state.crossfadeUiIntervals = [⟨1 / 2, 1, 0⟩] := by
  have h := automix_stop_cancels_monitor_only (run page crossfadeTrace) (by decide!)
  refine ⟨by decide!, ?_, ?_⟩
  · rw [h.1]; rfl
  · rw [h.2.2.1]; decide!

/-! ## C2, C4: automix track selection -/

/-- The loop ends without a choice when every inspected entry is rejected. -/
theorem scanQueue_none (queue : List File) (c : Nat) (o : Deck) (n i : Nat)
    (h : ∀ j, i ≤ j → j < i + n →
      ∃ u, queue[(c + j) % queue.length]? = some u ∧ candidateOk o u = some false) :
    scanQueue queue c o i n = some none := by
  induction n generalizing i with
  | zero => rfl
  | succ n ih =>
    obtain ⟨u, hu, hc⟩ := h i (le_refl _) (by omega)
    unfold scanQueue
    simp only [hu, hc]
    exact ih (i + 1) (fun j h1 h2 => h j (by omega) (by omega))

/-- The loop stops at the first inspected entry that passes the test. -/
theorem scanQueue_first (queue : List File) (c : Nat) (o : Deck) (n i j : Nat) (t : File)
    (hij : i ≤ j) (hjn : j < i + n)
    (ht : queue[(c + j) % queue.length]? = some t) (hok : candidateOk o t = some true)
    (hbefore : ∀ k, i ≤ k → k < j →
      ∃ u, queue[(c + k) % queue.length]? = some u ∧ candidateOk o u = some false) :
    scanQueue queue c o i n = some (some ((c + j) % queue.length, t)) := by
  induction n generalizing i with
  | zero => omega
  | succ n ih =>
    unfold scanQueue
    by_cases hi : i = j
    · subst hi
      simp only [ht, hok]
    · obtain ⟨u, hu, hc⟩ := hbefore i (le_refl _) (by omega)
      simp only [hu, hc]
      exact ih (i + 1) (by omega) (by omega) (fun k h1 h2 => hbefore k (by omega) h2)

theorem candidateOk_of_same (o : Deck) (t : File) (h : sameAsOtherDeck o t) :
    candidateOk o t = some false := by
  obtain ⟨hbuf, hname, cf, hcf, hsize⟩ := h
  unfold candidateOk
  cases hb : o.audioBuffer with
  | none => exact absurd hb hbuf
  | some b => simp [hname, hcf, hsize]

theorem candidateOk_of_not_same (o : Deck) (t : File)
    (hdef : o.audioBuffer = none ∨ o.currentFile ≠ none) (h : ¬ sameAsOtherDeck o t) :
    candidateOk o t = some true := by
  unfold candidateOk
  cases hb : o.audioBuffer with
  | none => simp
  | some b =>
    by_cases hname : t.name = o.trackInfo
    · cases hcf : o.currentFile with
      | none =>
        rcases hdef with hd | hd
        · rw [hb] at hd; cases hd
        · exact absurd hcf hd
      | some cf =>
        have hsize : t.size ≠ cf.size := by
          intro hs
          exact h ⟨by simp [hb], hname, cf, hcf, hs⟩
        simp [hname, hsize]
    · simp [hname]

/-- Supporting fact for C4: whenever the comparison with the other deck is
defined (that deck has no decoded audio, or it carries a `currentFile`
record), `loadNextTrackForAutomix` on a non-empty queue with cursor `c`
returns `false` with the state unchanged if every entry is identified with
the other deck's track, and otherwise loads the first entry in the cyclic
order `c, c+1, ...` that is not, moves the cursor one past it (modulo the
queue length) and leaves the queue as it is. -/
theorem loadNext_chooses_first_eligible (s : State) (k : Fin 2)
    (hq : s.automixQueue ≠ [])
    (hdef : (s.decks (1 - k)).audioBuffer = none ∨ (s.decks (1 - k)).currentFile ≠ none) :
    ((∀ t ∈ s.automixQueue, sameAsOtherDeck (s.decks (1 - k)) t) →
        loadNextTrackForAutomix s k = .ok false s)
    ∧ ∀ (i : Nat) (t : File), i < s.automixQueue.length →
        s.automixQueue[(s.automixQueueIndex + i) % s.automixQueue.length]? = some t →
        ¬ sameAsOtherDeck (s.decks (1 - k)) t →
        (∀ j u, j < i →
          s.automixQueue[(s.automixQueueIndex + j) % s.automixQueue.length]? = some u →
          sameAsOtherDeck (s.decks (1 - k)) u) →
        ∃ s1, loadNextTrackForAutomix s k = .ok true s1
          ∧ s1.automixQueueIndex
              = ((s.automixQueueIndex + i) % s.automixQueue.length + 1) % s.automixQueue.length
          ∧ s1.automixQueue = s.automixQueue
          ∧ s1.loadedTrack k = some t
          ∧ (s1.decks k).currentFile = some t
          ∧ s1.decks (1 - k) = s.decks (1 - k) := by
  have hlen : s.automixQueue.length ≠ 0 := by
    intro h; exact hq (List.length_eq_zero.mp h)
  have hget : ∀ j, ∃ u, s.automixQueue[(s.automixQueueIndex + j) % s.automixQueue.length]? = some u
      ∧ u ∈ s.automixQueue := by
    intro j
    have hlt : (s.automixQueueIndex + j) % s.automixQueue.length < s.automixQueue.length :=
      Nat.mod_lt _ (Nat.pos_of_ne_zero hlen)
    exact ⟨s.automixQueue[(s.automixQueueIndex + j) % s.automixQueue.length],
      List.getElem?_eq_getElem hlt, List.getElem_mem hlt⟩
  constructor
  · intro hall
    have hscan := scanQueue_none s.automixQueue s.automixQueueIndex (s.decks (1 - k))
      s.automixQueue.length 0 (fun j _ _ => by
        obtain ⟨u, hu, hmem⟩ := hget j
        exact ⟨u, hu, candidateOk_of_same _ _ (hall u hmem)⟩)
    unfold loadNextTrackForAutomix
    simp only [hlen, if_false, hscan]
  · intro i t hi ht hnot hbefore
    have hscan := scanQueue_first s.automixQueue s.automixQueueIndex (s.decks (1 - k))
      s.automixQueue.length 0 i t (Nat.zero_le _) (by omega) ht
      (candidateOk_of_not_same _ _ hdef hnot) (fun j _ hj => by
        obtain ⟨u, hu, _⟩ := hget j
        exact ⟨u, hu, candidateOk_of_same _ _ (hbefore j u hj hu)⟩)
    have hres : loadNextTrackForAutomix s k = .ok true
        (State.setDeck { s with automixQueueIndex :=
            ((s.automixQueueIndex + i) % s.automixQueue.length + 1) % s.automixQueue.length } k
          (({ s.decks k with currentFile := some t }).loadFile t)) := by
      unfold loadNextTrackForAutomix
      simp only [hlen, if_false, hscan]
      rfl
    refine ⟨_, hres, ?_, ?_, ?_, ?_, ?_⟩
    · simp
    · simp
    · simp [State.loadedTrack, Deck.loadFile, Deck.setupWaveform, WaveSurfer.load]
    · simp [Deck.loadFile, Deck.setupWaveform]
    · rw [decks_setDeck_opposite]
      simp [State.decks]

/-- C2 (code defect): `loadFile` never updates `currentFile`, so after automix
loaded `trackZ` into deck 1 and the user replaced it by `trackX`, the size
test compares against `trackZ`.  With `trackY` and `trackZ` available as
alternatives, selection for deck 2 picks `trackX`, the track on deck 1. -/
theorem automix_loads_track_of_other_deck :
    (run page staleTrace).loadedTrack 0 = some trackX
    ∧ ((run page staleTrace).decks 0).audioBuffer = some trackX
    ∧ ((run page staleTrace).decks 0).trackInfo = trackX.name
    ∧ ((run page staleTrace).decks 0).currentFile = some trackZ
    ∧ (run page staleTrace).automixQueue = [trackZ, trackX, trackY]
    ∧ (run page staleTrace).automixQueueIndex = 1
    ∧ (loadNextTrackForAutomix (run page staleTrace) 1).state.loadedTrack 1 = some trackX
    ∧ (run page (staleTrace ++ [.monitorTick])).loadedTrack 0 = some trackX
    ∧ (run page (staleTrace ++ [.monitorTick])).loadedTrack 1 = some trackX := by
  decide!

/-- C4 (code defect): after the user loaded `trackX` on deck 2, the queue is
`[trackX, trackY]` with the cursor at 0, so the first entry in cyclic order
that is not on the other deck is `trackY`.  Selection for deck 1 instead
throws a `TypeError` at `otherDeck.currentFile.size`: nothing is chosen,
nothing is returned, and the automix button handler dies with it. -/
theorem automix_selection_throws_after_user_load :
    (run page userLoadTrace).automixQueue = [trackX, trackY]
    ∧ (run page userLoadTrace).automixQueueIndex = 0
    ∧ (run page userLoadTrace).loadedTrack 1 = some trackX
    ∧ ((run page userLoadTrace).decks 1).audioBuffer = some trackX
    ∧ ((run page userLoadTrace).decks 1).currentFile = none
    ∧ loadNextTrackForAutomix (run page userLoadTrace) 0 = .typeError (run page userLoadTrace)
    ∧ automixClick (run page userLoadTrace) = .typeError (run page userLoadTrace) := by
  decide!

/-! ## C10: beat-count loops -/

theorem foldl_addHotCueMarker (cues : List (String × ℚ)) (d : Deck) :
    ∃ w, cues.foldl (fun acc c => acc.addHotCueMarker c.1 c.2) d = { d with wavesurfer := w } := by
  induction cues generalizing d with
  | nil => exact ⟨d.wavesurfer, rfl⟩
  | cons c rest ih =>
    obtain ⟨w, hw⟩ := ih (d.addHotCueMarker c.1 c.2)
    exact ⟨w, by rw [List.foldl_cons, hw]; rfl⟩

theorem updateHotCueMarkers_eq (d : Deck) :
    ∃ w, d.updateHotCueMarkers = { d with wavesurfer := w } :=
  foldl_addHotCueMarker d.hotCues d

theorem updateLoop_eq (d : Deck) : ∃ w, d.updateLoop = { d with wavesurfer := w } := by
  unfold Deck.updateLoop
  split
  · obtain ⟨w, hw⟩ := updateHotCueMarkers_eq { d with wavesurfer := d.wavesurfer.clearRegions }
    simp only [hw]
    exact ⟨_, rfl⟩
  · obtain ⟨w, hw⟩ := updateHotCueMarkers_eq { d with wavesurfer := d.wavesurfer.clearRegions }
    simp only [hw]
    exact ⟨_, rfl⟩

@[simp] theorem updateHotCueMarkers_loopStart (d : Deck) :
    d.updateHotCueMarkers.loopStart = d.loopStart := by
  obtain ⟨w, hw⟩ := updateHotCueMarkers_eq d; rw [hw]

@[simp] theorem updateHotCueMarkers_loopEnd (d : Deck) :
    d.updateHotCueMarkers.loopEnd = d.loopEnd := by
  obtain ⟨w, hw⟩ := updateHotCueMarkers_eq d; rw [hw]

@[simp] theorem updateHotCueMarkers_isLooping (d : Deck) :
    d.updateHotCueMarkers.isLooping = d.isLooping := by
  obtain ⟨w, hw⟩ := updateHotCueMarkers_eq d; rw [hw]

@[simp] theorem updateLoop_loopStart (d : Deck) : d.updateLoop.loopStart = d.loopStart := by
  obtain ⟨w, hw⟩ := updateLoop_eq d; rw [hw]

@[simp] theorem updateLoop_loopEnd (d : Deck) : d.updateLoop.loopEnd = d.loopEnd := by
  obtain ⟨w, hw⟩ := updateLoop_eq d; rw [hw]

@[simp] theorem updateLoop_isLooping (d : Deck) : d.updateLoop.isLooping = d.isLooping := by
  obtain ⟨w, hw⟩ := updateLoop_eq d; rw [hw]

/-- Supporting fact for C10: on a ready deck at tempo `t`, a beat-count loop
chosen at position `p` sets `loopStart = p` and `loopEnd = p + beats * (60 / t)`
when that end is within the track, and clears both points when it is beyond;
in both cases `isLooping` keeps the value it had. -/
theorem loopLengthChange_points (d : Deck) (t beats : ℚ)
    (hb : d.bpm = some t) (ht : t ≠ 0) (hd : 0 < d.wavesurfer.duration) :
    (d.wavesurfer.currentTime + beats * (60 / t) ≤ d.wavesurfer.duration →
        (d.loopLengthChange beats).loopStart = some d.wavesurfer.currentTime
        ∧ (d.loopLengthChange beats).loopEnd = some (d.wavesurfer.currentTime + beats * (60 / t))
        ∧ (d.loopLengthChange beats).isLooping = d.isLooping)
    ∧ (d.wavesurfer.duration < d.wavesurfer.currentTime + beats * (60 / t) →
        (d.loopLengthChange beats).loopStart = none
        ∧ (d.loopLengthChange beats).loopEnd = none
        ∧ (d.loopLengthChange beats).isLooping = d.isLooping) := by
  constructor
  · intro hle
    unfold Deck.loopLengthChange
    simp only [hb]
    rw [if_pos (by simp [ht, hd])]
    rw [if_pos (by simpa using hle)]
    split <;> simp
  · intro hgt
    unfold Deck.loopLengthChange
    simp only [hb]
    rw [if_pos (by simp [ht, hd])]
    rw [if_neg (by simpa using hgt)]
    simp

/-- C10 (code defect): deck 1 loops `[0, 2]` on a 10 s track at tempo 125 and
playback is at 9 s.  Choosing a 4-beat loop computes the end `9 + 4 * 60/125`,
beyond the track: both loop points and the regions are cleared, but
`isLooping` and the engine's loop flag stay on. -/
theorem beat_loop_beyond_end_keeps_looping :
    ((run page loopingTrace).decks 0).isLooping = true
    ∧ ((run page loopingTrace).decks 0).bpm = some 125
    ∧ ((run page loopingTrace).decks 0).wavesurfer.duration = 10
    ∧ ((run page loopingTrace).decks 0).wavesurfer.currentTime = 9
    ∧ ((run page (loopingTrace ++ [.loopLengthChange 0 4])).decks 0).loopStart = none
    ∧ ((run page (loopingTrace ++ [.loopLengthChange 0 4])).decks 0).loopEnd = none
    ∧ ((run page (loopingTrace ++ [.loopLengthChange 0 4])).decks 0).wavesurfer.regions = []
    ∧ ((run page (loopingTrace ++ [.loopLengthChange 0 4])).decks 0).isLooping = true
    ∧ ((run page (loopingTrace ++ [.loopLengthChange 0 4])).decks 0).wavesurfer.loop = true := by
  decide!

/-! ## C11: hot cues -/

theorem hotCue_append_self (cues : List (String × ℚ)) (slot : String) (p : ℚ)
    (h : (cues.find? (fun c => c.1 == slot)) = none) :
    (cues ++ [(slot, p)]).find? (fun c => c.1 == slot) = some (slot, p) := by
  rw [List.find?_append, h]
  simp

theorem hotCue_append_other (cues : List (String × ℚ)) (slot other : String) (p : ℚ)
    (h : other ≠ slot) :
    (cues ++ [(slot, p)]).find? (fun c => c.1 == other) = cues.find? (fun c => c.1 == other) := by
  rw [List.find?_append]
  have : ([(slot, p)] : List (String × ℚ)).find? (fun c => c.1 == other) = none := by
    have hb : (slot == other) = false := by simpa using h.symm
    simp [List.find?, hb]
  rw [this]; simp

/-- C11: on a loaded deck, the first trigger on an unset hot-cue slot records
the current position `P` in that slot; an immediately following trigger on the
same slot seeks to `P` and leaves the stored hot cues, hence `P`, unchanged;
every other slot reads the same after both triggers as before. -/
theorem hot_cue_set_then_jump (d : Deck) (slot : String)
    (hloaded : 0 < d.wavesurfer.duration) (hunset : d.hotCue slot = none) :
    ((d.hotCueClick slot).1).hotCue slot = some d.wavesurfer.currentTime
    ∧ ((d.hotCueClick slot).1).wavesurfer.currentTime = d.wavesurfer.currentTime
    ∧ ((((d.hotCueClick slot).1).hotCueClick slot).1).wavesurfer.currentTime
        = d.wavesurfer.currentTime
    ∧ ((((d.hotCueClick slot).1).hotCueClick slot).1).hotCues = ((d.hotCueClick slot).1).hotCues
    ∧ ((((d.hotCueClick slot).1).hotCueClick slot).1).hotCue slot = some d.wavesurfer.currentTime
    ∧ ∀ other, other ≠ slot →
        ((d.hotCueClick slot).1).hotCue other = d.hotCue other
        ∧ ((((d.hotCueClick slot).1).hotCueClick slot).1).hotCue other = d.hotCue other := by
  have hne : d.wavesurfer.duration ≠ 0 := ne_of_gt hloaded
  have hfind : d.hotCues.find? (fun c => c.1 == slot) = none := by
    unfold Deck.hotCue at hunset
    simpa using hunset
  have h1 : (d.hotCueClick slot).1 = ({ d with hotCues := d.hotCues ++ [(slot, d.wavesurfer.currentTime)] }).addHotCueMarker slot d.wavesurfer.currentTime := by
    unfold Deck.hotCueClick
    simp [hne, hunset]
  have hcues : ((d.hotCueClick slot).1).hotCues = d.hotCues ++ [(slot, d.wavesurfer.currentTime)] := by
    rw [h1]; rfl
  have hdur : ((d.hotCueClick slot).1).wavesurfer.duration = d.wavesurfer.duration := by
    rw [h1]; rfl
  have hset : ((d.hotCueClick slot).1).hotCue slot = some d.wavesurfer.currentTime := by
    unfold Deck.hotCue
    rw [hcues, hotCue_append_self _ _ _ hfind]; rfl
  have hother1 : ∀ other, other ≠ slot → ((d.hotCueClick slot).1).hotCue other = d.hotCue other := by
    intro other ho
    unfold Deck.hotCue
    rw [hcues, hotCue_append_other _ _ _ _ ho]
  have h2 : (((d.hotCueClick slot).1).hotCueClick slot).1.hotCues = ((d.hotCueClick slot).1).hotCues
      ∧ (((d.hotCueClick slot).1).hotCueClick slot).1.wavesurfer.currentTime
          = d.wavesurfer.currentTime / d.wavesurfer.duration * d.wavesurfer.duration := by
    generalize hd1 : (d.hotCueClick slot).1 = d1 at hset hdur
    unfold Deck.hotCueClick
    simp only [hdur, hne, beq_iff_eq, if_false, hset]
    split <;> simp [WaveSurfer.seekTo, WaveSurfer.play, hdur]
  refine ⟨hset, by rw [h1]; rfl, ?_, h2.1, ?_, ?_⟩
  · rw [h2.2]; field_simp
  · unfold Deck.hotCue
    rw [h2.1]
    exact hset
  · intro other ho
    refine ⟨hother1 other ho, ?_⟩
    have := hother1 other ho
    unfold Deck.hotCue at this ⊢
    rw [h2.1]; exact this

/-- C11 on deck 1 playing `trackT` at 3 s, slot 1. -/
theorem hot_cue_set_then_jump_witness :
    0 < ((run page playingTrace).decks 0).wavesurfer.duration
    ∧ ((run page playingTrace).decks 0).hotCue "1" = none
    ∧ ((((run page playingTrace).decks 0).hotCueClick "1").1).hotCue "1" = some 3
    ∧ ((((((run page playingTrace).decks 0).hotCueClick "1").1).hotCueClick "1").1).hotCue "1"
        = some 3 := by
  have h := hot_cue_set_then_jump ((run page playingTrace).decks 0) "1" (by decide!) (by decide!)
  have hp : ((run page playingTrace).decks 0).wavesurfer.currentTime = 3 := by decide!
  rw [hp] at h
  exact ⟨by decide!, by decide!, h.1, h.2.2.2.2.1⟩

/-! ## C12, C13: loading a track -/

/-- C12: `loadFile`, from any prior deck state, leaves `hotCues` empty,
`loopStart` and `loopEnd` unset, `isLooping` false and the effect filter
cutoff at 22000; the fresh playback engine has no regions and its loop flag
off.  The file input of either deck loads through it. -/
theorem load_resets_track_state (d : Deck) (file : File) :
    (d.loadFile file).hotCues = []
    ∧ (d.loadFile file).loopStart = none
    ∧ (d.loadFile file).loopEnd = none
    ∧ (d.loadFile file).isLooping = false
    ∧ (d.loadFile file).lpfFrequency = 22000
    ∧ (d.loadFile file).wavesurfer.regions = []
    ∧ (d.loadFile file).wavesurfer.loop = false
    ∧ ∀ (s : State) (i : Fin 2),
        (fileInputChange s i [file]).decks i = (s.decks i).loadFile file := by
  refine ⟨rfl, rfl, rfl, rfl, rfl, rfl, rfl, ?_⟩
  intro s i
  simp only [fileInputChange]
  unfold State.decks State.setDeck
  split <;> simp_all

/-- C13 (counterexample): deck 1 is playing `trackT` when `trackX` is loaded
on it; once `loadFile` has returned the playing flag is still true, although
the fresh playback engine is not playing. -/
theorem load_leaves_playing_flag_set :
    ((run page [.fileInputChange 0 [trackT], .wsReady 0, .playPauseClick 0]).decks 0).isPlaying
        = true
    ∧ ((run page reloadWhilePlayingTrace).decks 0).isPlaying = true
    ∧ ((run page reloadWhilePlayingTrace).decks 0).wavesurfer.playing = false
    ∧ (run page reloadWhilePlayingTrace).loadedTrack 0 = some trackX := by
  decide!

/-- C13 (amended): `loadFile` leaves the playing flag as it was (the fresh
playback engine itself is not playing); the flag is set to false when the
engine reports the loaded track ready and the `ready` handler runs. -/
theorem load_keeps_playing_flag_until_ready (d : Deck) (file : File) :
    (d.loadFile file).isPlaying = d.isPlaying
    ∧ (d.loadFile file).wavesurfer.playing = false
    ∧ ((d.loadFile file).onReady).isPlaying = false := by
  refine ⟨rfl, rfl, ?_⟩
  simp [Deck.onReady, Deck.loadFile, Deck.setupWaveform, WaveSurfer.load, WaveSurfer.create,
    Deck.updateHotCueMarkers, Deck.analyzeBPM]
  split <;> rfl

/-! ## C14: tempo estimation -/

theorem jsRound_eq_round (x : ℚ) : jsRound x = round x := by
  unfold jsRound
  rw [round_eq]

theorem jsMod_of_pos (a : ℚ) (h : 0 < a) : jsMod a 20 = a - 20 * ⌊a / 20⌋ := by
  unfold jsMod
  rw [if_pos (by positivity)]

/-- C14: for every positive duration `analyzeBPM` sets the tempo to
`clamp(round(120 + (duration mod 20) * 0.5), 80, 180)`, which lies in
`[80, 180]`; it depends on the duration only: two decks with the same duration
get the same tempo. -/
theorem tempo_is_formula_of_duration (d : Deck) (hpos : 0 < d.wavesurfer.duration) :
    d.analyzeBPM.bpm = some (tempoFormula d.wavesurfer.duration)
    ∧ 80 ≤ tempoFormula d.wavesurfer.duration
    ∧ tempoFormula d.wavesurfer.duration ≤ 180
    ∧ ∀ d2 : Deck, d2.wavesurfer.duration = d.wavesurfer.duration →
        d2.analyzeBPM.bpm = d.analyzeBPM.bpm := by
  have hne : d.wavesurfer.duration ≠ 0 := ne_of_gt hpos
  have hbpm : ∀ d2 : Deck, d2.wavesurfer.duration = d.wavesurfer.duration →
      d2.analyzeBPM.bpm = some (tempoFormula d.wavesurfer.duration) := by
    intro d2 h2
    unfold Deck.analyzeBPM tempoFormula
    simp only [h2, bne_iff_ne, ne_eq, hne, not_false_eq_true, if_true]
    rw [jsRound_eq_round, jsMod_of_pos _ hpos]
    norm_num
  refine ⟨hbpm d rfl, le_max_left _ _, ?_, ?_⟩
  · unfold tempoFormula
    exact max_le (by norm_num) (min_le_right _ _)
  · intro d2 h2
    rw [hbpm d2 h2, hbpm d rfl]

/-- C14 on the 10 s track: tempo `round(120 + 10 * 0.5) = 125`. -/
theorem tempo_is_formula_of_duration_witness :
    0 < ((run page playingTrace).decks 0).wavesurfer.duration
    ∧ ((run page playingTrace).decks 0).analyzeBPM.bpm = some 125 := by
  have h := tempo_is_formula_of_duration ((run page playingTrace).decks 0) (by decide!)
  refine ⟨by decide!, ?_⟩
  rw [h.1]
  decide!

/-! ## C15: crossfader endpoints -/

theorem gain1_zero : gain1 0 = 1 := by simp [gain1]
theorem gain2_zero : gain2 0 = 0 := by
  unfold gain2
  have : (1 - (0:ℝ)) * 0.5 * Real.pi = Real.pi / 2 := by ring
  rw [this, Real.cos_pi_div_two]
theorem gain1_one : gain1 1 = 0 := by
  unfold gain1
  have : (1:ℝ) * 0.5 * Real.pi = Real.pi / 2 := by ring
  rw [this, Real.cos_pi_div_two]
theorem gain2_one : gain2 1 = 1 := by simp [gain2]

theorem deckGain_of_crossfaderFor (s : State) (i : Fin 2) (h : s.crossfader = crossfaderFor i) :
    s.deckGain i = ((s.decks i).volumeSlider : ℝ) ∧ s.deckGain (1 - i) = 0 := by
  fin_cases i
  · simp [State.deckGain, updateCrossfader, h, crossfaderFor, gain1_zero, gain2_zero, State.decks]
  · simp [State.deckGain, updateCrossfader, h, crossfaderFor, gain1_one, gain2_one, State.decks]

/-- Over the reals the curve gives `gain1 0 = 1`, `gain2 0 = 0`,
`gain1 1 = 0`, `gain2 1 = 1`; so `updateCrossfader` at 0 writes `(volume1, 0)`
and at 1 writes `(0, volume2)`. -/
theorem curve_endpoints_over_reals :
    gain1 0 = 1 ∧ gain2 0 = 0 ∧ gain1 1 = 0 ∧ gain2 1 = 1
    ∧ (∀ volume1 volume2 : ℝ, updateCrossfader 0 volume1 volume2 = (volume1, 0)
        ∧ updateCrossfader 1 volume1 volume2 = (0, volume2)) := by
  refine ⟨gain1_zero, gain2_zero, gain1_one, gain2_one, ?_⟩
  intro v1 v2
  simp [updateCrossfader, gain1_zero, gain2_zero, gain1_one, gain2_one]

/-! ### Rounding to doubles -/

theorem roundHalfEven_intCast (n : ℤ) : roundHalfEven (n : ℝ) = n := by
  simp [roundHalfEven]

theorem abs_roundHalfEven_sub_le (x : ℝ) : |(roundHalfEven x : ℝ) - x| ≤ 1 / 2 := by
  have h0 := Int.fract_nonneg x
  have h1 := Int.fract_lt_one x
  have hx : x = ⌊x⌋ + Int.fract x := (Int.floor_add_fract x).symm
  unfold roundHalfEven
  rw [abs_le]
  split_ifs with ha hb hc
  · constructor <;> linarith
  · push_cast; constructor <;> linarith
  · constructor <;> linarith
  · push_cast; constructor <;> linarith

theorem ulpExponent_ge (x : ℝ) : -1074 ≤ ulpExponent x := by
  unfold ulpExponent
  have := le_max_right (Int.log 2 |x|) (-1022)
  omega

theorem abs_lt_zpow_ulpExponent (x : ℝ) : |x| < (2 : ℝ) ^ (ulpExponent x + 53) := by
  have h := Int.lt_zpow_succ_log_self (show 1 < 2 by norm_num) |x|
  have hle : Int.log 2 |x| + 1 ≤ ulpExponent x + 53 := by
    unfold ulpExponent
    have := le_max_left (Int.log 2 |x|) (-1022)
    omega
  calc |x| < ((2 : ℕ) : ℝ) ^ (Int.log 2 |x| + 1) := h
    _ = (2 : ℝ) ^ (Int.log 2 |x| + 1) := by norm_num
    _ ≤ (2 : ℝ) ^ (ulpExponent x + 53) := zpow_le_zpow_right₀ (by norm_num) hle

theorem toDouble_zero : toDouble 0 = 0 := by
  unfold toDouble
  simp [roundHalfEven]

/-- A real that is an integer multiple of its own unit in the last place is a double. -/
theorem toDouble_of_int_ulp (y : ℝ) (n : ℤ) (h : y = n * (2 : ℝ) ^ ulpExponent y) :
    toDouble y = y := by
  have hpos : (0 : ℝ) < (2 : ℝ) ^ ulpExponent y := zpow_pos (by norm_num) _
  have hq : y / (2 : ℝ) ^ ulpExponent y = n := by
    rw [div_eq_iff hpos.ne']; exact h
  unfold toDouble
  rw [hq, roundHalfEven_intCast, ← h]

theorem toDouble_of_lt (m k : ℤ) (hm : |m| < 2 ^ 53) (hk : -1074 ≤ k) :
    toDouble (m * (2 : ℝ) ^ k) = m * (2 : ℝ) ^ k := by
  by_cases h0 : m = 0
  · subst h0; simp [toDouble_zero]
  set y : ℝ := m * (2 : ℝ) ^ k with hy
  have hk2 : (0 : ℝ) < (2 : ℝ) ^ k := zpow_pos (by norm_num) _
  have hypos : 0 < |y| := by
    rw [hy, abs_mul, abs_of_pos hk2]
    exact mul_pos (abs_pos.mpr (by exact_mod_cast h0)) hk2
  have hlt : |y| < ((2 : ℕ) : ℝ) ^ (k + 53) := by
    rw [hy, abs_mul, abs_of_pos hk2, zpow_add₀ (by norm_num), mul_comm]
    have : (|(m : ℝ)|) < ((2 : ℕ) : ℝ) ^ (53 : ℤ) := by
      have h53 : |(m : ℝ)| < 2 ^ 53 := by exact_mod_cast hm
      have e53 : ((2 : ℕ) : ℝ) ^ (53 : ℤ) = 2 ^ 53 := by norm_num
      rw [e53]; exact h53
    have h2 : ((2 : ℕ) : ℝ) ^ k = (2 : ℝ) ^ k := by norm_num
    rw [h2]
    exact mul_lt_mul_of_pos_left this hk2
  have hlog : Int.log 2 |y| < k + 53 := (Int.lt_zpow_iff_log_lt (by norm_num) hypos).mp hlt
  have hle : ulpExponent y ≤ k := by
    unfold ulpExponent
    rcases max_cases (Int.log 2 |y|) (-1022) with ⟨h, _⟩ | ⟨h, _⟩ <;> omega
  obtain ⟨d, hd⟩ : ∃ d : ℕ, k = ulpExponent y + d := ⟨(k - ulpExponent y).toNat, by omega⟩
  apply toDouble_of_int_ulp y (m * 2 ^ d)
  conv_lhs => rw [hy, hd]
  rw [zpow_add₀ (by norm_num), zpow_natCast]
  push_cast
  ring

theorem toDouble_of_le (m k : ℤ) (hm : |m| ≤ 2 ^ 53) (hk : -1074 ≤ k) :
    toDouble (m * (2 : ℝ) ^ k) = m * (2 : ℝ) ^ k := by
  rcases lt_or_eq_of_le hm with h | h
  · exact toDouble_of_lt m k h hk
  · have hm2 : m = 2 ^ 53 ∨ m = -2 ^ 53 := by
      rcases abs_cases m with ⟨h1, _⟩ | ⟨h1, _⟩ <;> [left; right] <;> omega
    have key : ∀ c : ℤ, |c| < 2 ^ 53 → (m : ℝ) = c * 2 →
        toDouble (m * (2 : ℝ) ^ k) = m * (2 : ℝ) ^ k := by
      intro c hc hmc
      have e : (m : ℝ) * (2 : ℝ) ^ k = c * (2 : ℝ) ^ (k + 1) := by
        rw [zpow_add₀ (by norm_num), hmc]; ring
      rw [e]
      exact toDouble_of_lt c (k + 1) hc (by omega)
    rcases hm2 with h1 | h1
    · exact key (2 ^ 52) (by norm_num) (by rw [h1]; norm_num)
    · exact key (-2 ^ 52) (by norm_num) (by rw [h1]; norm_num)

theorem toDouble_idem (x : ℝ) : toDouble (toDouble x) = toDouble x := by
  have hpos : (0 : ℝ) < (2 : ℝ) ^ ulpExponent x := zpow_pos (by norm_num) _
  have hr := abs_roundHalfEven_sub_le (x / (2 : ℝ) ^ ulpExponent x)
  have hx : |x / (2 : ℝ) ^ ulpExponent x| < 2 ^ 53 := by
    rw [abs_div, abs_of_pos hpos, div_lt_iff₀ hpos]
    have := abs_lt_zpow_ulpExponent x
    rw [zpow_add₀ (by norm_num)] at this
    have e : (2 : ℝ) ^ (53 : ℤ) = 2 ^ 53 := by norm_num
    rw [e] at this
    linarith
  have hm : |roundHalfEven (x / (2 : ℝ) ^ ulpExponent x)| ≤ 2 ^ 53 := by
    have h1 : |(roundHalfEven (x / (2 : ℝ) ^ ulpExponent x) : ℝ)| < 2 ^ 53 + 1 := by
      have := abs_sub_abs_le_abs_sub (roundHalfEven (x / (2 : ℝ) ^ ulpExponent x) : ℝ)
        (x / (2 : ℝ) ^ ulpExponent x)
      linarith
    have h3 : |roundHalfEven (x / (2 : ℝ) ^ ulpExponent x)| < 2 ^ 53 + 1 := by exact_mod_cast h1
    omega
  unfold toDouble at *
  exact toDouble_of_le _ _ hm (ulpExponent_ge x)

theorem abs_toDouble_sub_le (x : ℝ) (hx : (2 : ℝ) ^ (-1022 : ℤ) ≤ |x|) :
    |toDouble x - x| ≤ |x| / 2 ^ 53 := by
  have hxpos : 0 < |x| := lt_of_lt_of_le (zpow_pos (by norm_num) _) hx
  have hlog : -1022 ≤ Int.log 2 |x| := by
    apply (Int.zpow_le_iff_le_log (by norm_num) hxpos).mp
    simpa using hx
  have hk : ulpExponent x = Int.log 2 |x| - 52 := by
    unfold ulpExponent; rw [max_eq_left hlog]
  have hpos : (0 : ℝ) < (2 : ℝ) ^ ulpExponent x := zpow_pos (by norm_num) _
  have hr := abs_roundHalfEven_sub_le (x / (2 : ℝ) ^ ulpExponent x)
  have hlow : (2 : ℝ) ^ (ulpExponent x + 52) ≤ |x| := by
    have := Int.zpow_log_le_self (show 1 < 2 by norm_num) hxpos
    rw [hk]
    simpa using this
  have e : toDouble x - x
      = ((roundHalfEven (x / (2 : ℝ) ^ ulpExponent x) : ℝ) - x / (2 : ℝ) ^ ulpExponent x)
        * (2 : ℝ) ^ ulpExponent x := by
    unfold toDouble
    field_simp
  rw [e, abs_mul, abs_of_pos hpos]
  rw [zpow_add₀ (by norm_num)] at hlow
  have e52 : (2 : ℝ) ^ (52 : ℤ) = 2 ^ 52 := by norm_num
  rw [e52] at hlow
  rw [le_div_iff₀ (by positivity)]
  calc |(roundHalfEven (x / (2 : ℝ) ^ ulpExponent x) : ℝ) - x / (2 : ℝ) ^ ulpExponent x|
        * (2 : ℝ) ^ ulpExponent x * 2 ^ 53
      ≤ 1 / 2 * (2 : ℝ) ^ ulpExponent x * 2 ^ 53 := by gcongr
    _ = (2 : ℝ) ^ ulpExponent x * 2 ^ 52 := by ring
    _ ≤ |x| := hlow

/-! ### The curve at the ends of the crossfader, as computed -/

theorem toDouble_one : toDouble 1 = 1 := by
  have := toDouble_of_lt 1 0 (by norm_num) (by norm_num)
  simpa using this

theorem toDouble_half : toDouble (1 * 0.5) = 1 / 2 := by
  have := toDouble_of_lt 1 (-1) (by norm_num) (by norm_num)
  have e : ((1 : ℤ) : ℝ) * (2 : ℝ) ^ (-1 : ℤ) = 1 * 0.5 := by norm_num
  rw [e] at this
  rw [this]; norm_num

theorem toDouble_half_mathPI : toDouble (1 / 2 * (mathPI : ℝ)) = (mathPI : ℝ) / 2 := by
  have := toDouble_of_lt 884279719003555 (-49) (by norm_num) (by norm_num)
  have e : ((884279719003555 : ℤ) : ℝ) * (2 : ℝ) ^ (-49 : ℤ) = 1 / 2 * (mathPI : ℝ) := by
    unfold mathPI
    rw [zpow_neg]
    push_cast
    norm_num
  rw [e] at this
  rw [this]; ring

theorem mathCos_zero : mathCos 0 = 1 := by
  unfold mathCos
  rw [Real.cos_zero, toDouble_one]

theorem gain1Double_zero : gain1Double 0 = 1 := by
  unfold gain1Double
  rw [zero_mul, toDouble_zero, zero_mul, toDouble_zero, mathCos_zero]

theorem gain2Double_one : gain2Double 1 = 1 := by
  unfold gain2Double
  rw [sub_self, toDouble_zero, zero_mul, toDouble_zero, zero_mul, toDouble_zero, mathCos_zero]

theorem gain1Double_one : gain1Double 1 = mathCos ((mathPI : ℝ) / 2) := by
  unfold gain1Double
  rw [toDouble_half, toDouble_half_mathPI]

theorem gain2Double_zero : gain2Double 0 = mathCos ((mathPI : ℝ) / 2) := by
  unfold gain2Double
  rw [sub_zero, toDouble_one, toDouble_half, toDouble_half_mathPI]

theorem cos_half_mathPI_bounds :
    61231 / 10 ^ 21 < Real.cos ((mathPI : ℝ) / 2) ∧ Real.cos ((mathPI : ℝ) / 2) < 61237 / 10 ^ 21 := by
  have hlo := Real.pi_gt_d20
  have hhi := Real.pi_lt_d20
  have hP : (mathPI : ℝ) = 884279719003555 / 281474976710656 := by
    unfold mathPI; push_cast; rfl
  have hcos : Real.cos ((mathPI : ℝ) / 2) = Real.sin (Real.pi / 2 - (mathPI : ℝ) / 2) :=
    (Real.sin_pi_div_two_sub _).symm
  have hd0 : 6123101 / 10 ^ 23 < Real.pi / 2 - (mathPI : ℝ) / 2 := by
    rw [hP]; norm_num at hlo ⊢; linarith
  have hd1 : Real.pi / 2 - (mathPI : ℝ) / 2 < 612365 / 10 ^ 22 := by
    rw [hP]; norm_num at hhi ⊢; linarith
  have hpos : 0 < Real.pi / 2 - (mathPI : ℝ) / 2 := lt_trans (by norm_num) hd0
  have h1 := Real.sin_lt hpos
  have h2 := Real.sin_gt_sub_cube hpos (le_of_lt (lt_trans hd1 (by norm_num)))
  rw [hcos]
  refine ⟨?_, lt_trans h1 (lt_trans hd1 (by norm_num))⟩
  have h3 : (Real.pi / 2 - (mathPI : ℝ) / 2) ^ 3 ≤ 1 / 10 ^ 30 := by
    have : (Real.pi / 2 - (mathPI : ℝ) / 2) ^ 3 ≤ (1 / 10 ^ 10) ^ 3 :=
      pow_le_pow_left₀ hpos.le (le_of_lt (lt_trans hd1 (by norm_num))) 3
    linarith [show ((1 : ℝ) / 10 ^ 10) ^ 3 = 1 / 10 ^ 30 by norm_num]
  have : (61231 : ℝ) / 10 ^ 21 < 6123101 / 10 ^ 23 - (1 / 10 ^ 30) / 4 := by norm_num
  linarith

theorem toDouble_bounds (x : ℝ) (hx : (2 : ℝ) ^ (-1022 : ℤ) ≤ x) :
    x * (1 - 1 / 2 ^ 53) ≤ toDouble x ∧ toDouble x ≤ x * (1 + 1 / 2 ^ 53) := by
  have hpos : 0 < x := lt_of_lt_of_le (zpow_pos (by norm_num) _) hx
  have h := abs_toDouble_sub_le x (by rwa [abs_of_pos hpos])
  rw [abs_of_pos hpos, abs_le] at h
  constructor
  · have : x * (1 - 1 / 2 ^ 53) = x - x / 2 ^ 53 := by ring
    linarith
  · have : x * (1 + 1 / 2 ^ 53) = x + x / 2 ^ 53 := by ring
    linarith

theorem two_zpow_le : (2 : ℝ) ^ (-1022 : ℤ) ≤ 1 / 10 ^ 30 := by
  calc (2 : ℝ) ^ (-1022 : ℤ) ≤ (2 : ℝ) ^ (-100 : ℤ) :=
        zpow_le_zpow_right₀ (by norm_num) (by norm_num)
    _ ≤ 1 / 10 ^ 30 := by
        rw [zpow_neg]; norm_num

theorem mathCos_half_mathPI_bounds :
    6123 / 10 ^ 20 < mathCos ((mathPI : ℝ) / 2) ∧ mathCos ((mathPI : ℝ) / 2) < 6124 / 10 ^ 20 := by
  obtain ⟨h0, h1⟩ := cos_half_mathPI_bounds
  have hx : (2 : ℝ) ^ (-1022 : ℤ) ≤ Real.cos ((mathPI : ℝ) / 2) :=
    le_trans two_zpow_le (le_of_lt (lt_trans (by norm_num) h0))
  obtain ⟨b0, b1⟩ := toDouble_bounds _ hx
  unfold mathCos
  constructor
  · refine lt_of_lt_of_le ?_ b0
    have : (6123 : ℝ) / 10 ^ 20 < 61231 / 10 ^ 21 * (1 - 1 / 2 ^ 53) := by norm_num
    refine lt_trans this ?_
    exact mul_lt_mul_of_pos_right h0 (by norm_num)
  · refine lt_of_le_of_lt b1 ?_
    have : (61237 : ℝ) / 10 ^ 21 * (1 + 1 / 2 ^ 53) < 6124 / 10 ^ 20 := by norm_num
    refine lt_trans ?_ this
    exact mul_lt_mul_of_pos_right h1 (by norm_num)

/-- Gain written to a deck at the far end of the crossfader. -/
theorem faded_out_gain_bounds (v : ℚ) (h0 : 1 / 1000 ≤ v) (h1 : v ≤ 1) :
    6 * (v : ℝ) / 10 ^ 17 < toDouble (mathCos ((mathPI : ℝ) / 2) * parseFloat v)
    ∧ toDouble (mathCos ((mathPI : ℝ) / 2) * parseFloat v) < 7 * (v : ℝ) / 10 ^ 17 := by
  obtain ⟨c0, c1⟩ := mathCos_half_mathPI_bounds
  have hv0 : (1 : ℝ) / 1000 ≤ (v : ℝ) := by
    have h : ((1 / 1000 : ℚ) : ℝ) ≤ (v : ℝ) := Rat.cast_le.mpr h0
    simpa using h
  have hv1 : (v : ℝ) ≤ 1 := by exact_mod_cast h1
  have hvpos : (0 : ℝ) < v := lt_of_lt_of_le (by norm_num) hv0
  obtain ⟨p0, p1⟩ := toDouble_bounds (v : ℝ)
    (le_trans two_zpow_le (le_trans (by norm_num) hv0))
  have hp0 : (v : ℝ) * (1 - 1 / 2 ^ 53) ≤ parseFloat v := p0
  have hp1 : parseFloat v ≤ (v : ℝ) * (1 + 1 / 2 ^ 53) := p1
  have hppos : 0 < parseFloat v := lt_of_lt_of_le (mul_pos hvpos (by norm_num)) hp0
  have hcpos : 0 < mathCos ((mathPI : ℝ) / 2) := lt_trans (by norm_num) c0
  have hprod0 : 6123 / 10 ^ 20 * ((v : ℝ) * (1 - 1 / 2 ^ 53))
      ≤ mathCos ((mathPI : ℝ) / 2) * parseFloat v :=
    mul_le_mul c0.le hp0 (mul_nonneg hvpos.le (by norm_num)) hcpos.le
  have hprod1 : mathCos ((mathPI : ℝ) / 2) * parseFloat v
      ≤ 6124 / 10 ^ 20 * ((v : ℝ) * (1 + 1 / 2 ^ 53)) :=
    mul_le_mul c1.le hp1 hppos.le (by norm_num)
  have hx : (2 : ℝ) ^ (-1022 : ℤ) ≤ mathCos ((mathPI : ℝ) / 2) * parseFloat v := by
    refine le_trans two_zpow_le (le_trans ?_ hprod0)
    have : (1 : ℝ) / 10 ^ 30 ≤ 6123 / 10 ^ 20 * (1 / 1000 * (1 - 1 / 2 ^ 53)) := by norm_num
    refine le_trans this ?_
    gcongr
  obtain ⟨q0, q1⟩ := toDouble_bounds _ hx
  constructor
  · refine lt_of_lt_of_le ?_ q0
    have : 6 * (v : ℝ) / 10 ^ 17
        < 6123 / 10 ^ 20 * ((v : ℝ) * (1 - 1 / 2 ^ 53)) * (1 - 1 / 2 ^ 53) := by
      nlinarith
    refine lt_of_lt_of_le this ?_
    exact mul_le_mul_of_nonneg_right hprod0 (by norm_num)
  · refine lt_of_le_of_lt q1 ?_
    have : 6124 / 10 ^ 20 * ((v : ℝ) * (1 + 1 / 2 ^ 53)) * (1 + 1 / 2 ^ 53)
        < 7 * (v : ℝ) / 10 ^ 17 := by
      nlinarith
    refine lt_of_le_of_lt ?_ this
    exact mul_le_mul_of_nonneg_right hprod1 (by norm_num)

theorem parseFloat_zero : parseFloat 0 = 0 := by
  unfold parseFloat
  rw [Rat.cast_zero, toDouble_zero]

theorem parseFloat_one : parseFloat 1 = 1 := by
  unfold parseFloat
  rw [Rat.cast_one, toDouble_one]

theorem deckGainDouble_of_crossfaderFor (s : State) (i : Fin 2)
    (h : s.crossfader = crossfaderFor i) :
    s.deckGainDouble i = parseFloat (s.decks i).volumeSlider
    ∧ s.deckGainDouble (1 - i)
        = toDouble (mathCos ((mathPI : ℝ) / 2) * parseFloat (s.decks (1 - i)).volumeSlider) := by
  have hidem : ∀ q : ℚ, toDouble (parseFloat q) = parseFloat q := fun q => toDouble_idem _
  fin_cases i
  · simp [State.deckGainDouble, updateCrossfaderDouble, h, crossfaderFor, parseFloat_zero,
      gain1Double_zero, gain2Double_zero, State.decks, hidem]
  · simp [State.deckGainDouble, updateCrossfaderDouble, h, crossfaderFor, parseFloat_one,
      gain1Double_one, gain2Double_one, State.decks, hidem]

/-- C15 (counterexample): after `endpointTrace` automix has deck 1 active
and has set the crossfader to its index 0, deck 2's fader is at 0.6, and the
gain `updateCrossfader` writes to deck 2 is not 0: it exceeds 3.6e-17. -/
theorem crossfader_endpoint_gain_not_zero :
    (run page endpointTrace).currentActiveDeckIndex = 0
    ∧ (run page endpointTrace).crossfader = 0
    ∧ ((run page endpointTrace).decks 1).volumeSlider = 3 / 5
    ∧ (run page endpointTrace).deckGainDouble 1 ≠ 0
    ∧ 36 / 10 ^ 18 < (run page endpointTrace).deckGainDouble 1 := by
  have hc : (run page endpointTrace).crossfader = crossfaderFor 0 := by decide!
  have hv : ((run page endpointTrace).decks (1 - 0)).volumeSlider = 3 / 5 := by decide!
  have hg := (deckGainDouble_of_crossfaderFor (run page endpointTrace) 0 hc).2
  have hb := (faded_out_gain_bounds (3 / 5) (by norm_num) (by norm_num)).1
  rw [hv] at hg
  have e : (1 - 0 : Fin 2) = 1 := by decide
  rw [e] at hg
  have hlt : 36 / 10 ^ 18 < (run page endpointTrace).deckGainDouble 1 := by
    rw [hg]
    refine lt_of_le_of_lt ?_ hb
    push_cast
    norm_num
  refine ⟨by decide!, by decide!, by decide!, ?_, hlt⟩
  exact ne_of_gt (lt_trans (by norm_num) hlt)

/-- C15 (amended): in double precision the curve gives `gain1 0 = 1` and
`gain2 1 = 1` exactly, while `gain2 0` and `gain1 1` are
`Math.cos(Math.PI / 2)`, a number between 6.123e-17 and 6.124e-17 and not 0
(`Math.PI` lies below π).  So with the crossfader at the index of deck `i`
the gain written to deck `i` is its own fader volume; the gain written to
the other deck is 0 when its fader is at 0, and for a fader value `v` from
0.001 to 1 it lies between `6e-17 * v` and `7e-17 * v`. -/
theorem crossfader_endpoints_in_doubles (s : State) (i : Fin 2)
    (h : s.crossfader = crossfaderFor i) :
    gain1Double 0 = 1 ∧ gain2Double 1 = 1
    ∧ gain2Double 0 = mathCos ((mathPI : ℝ) / 2) ∧ gain1Double 1 = mathCos ((mathPI : ℝ) / 2)
    ∧ 6123 / 10 ^ 20 < mathCos ((mathPI : ℝ) / 2) ∧ mathCos ((mathPI : ℝ) / 2) < 6124 / 10 ^ 20
    ∧ s.deckGainDouble i = parseFloat (s.decks i).volumeSlider
    ∧ ((s.decks (1 - i)).volumeSlider = 0 → s.deckGainDouble (1 - i) = 0)
    ∧ (1 / 1000 ≤ (s.decks (1 - i)).volumeSlider → (s.decks (1 - i)).volumeSlider ≤ 1 →
        6 * (((s.decks (1 - i)).volumeSlider : ℚ) : ℝ) / 10 ^ 17 < s.deckGainDouble (1 - i)
        ∧ s.deckGainDouble (1 - i) < 7 * (((s.decks (1 - i)).volumeSlider : ℚ) : ℝ) / 10 ^ 17) := by
  obtain ⟨hown, hother⟩ := deckGainDouble_of_crossfaderFor s i h
  refine ⟨gain1Double_zero, gain2Double_one, gain2Double_zero, gain1Double_one,
    mathCos_half_mathPI_bounds.1, mathCos_half_mathPI_bounds.2, hown, ?_, ?_⟩
  · intro hv
    rw [hother, hv, parseFloat_zero, mul_zero, toDouble_zero]
  · intro h0 h1
    rw [hother]
    exact faded_out_gain_bounds _ h0 h1

/-- C15 (amended) after `endpointTrace`: the crossfader is at the index of
the active deck 1, which gets its fader volume 1, and deck 2 with its fader
at 0.6 gets a gain below 4.2e-17. -/
theorem crossfader_endpoints_in_doubles_witness :
    (run page endpointTrace).crossfader
        = crossfaderFor (run page endpointTrace).currentActiveDeckIndex
    ∧ (run page endpointTrace).deckGainDouble 0 = 1
    ∧ (run page endpointTrace).deckGainDouble 1 < 42 / 10 ^ 18 := by
  have hi : (run page endpointTrace).currentActiveDeckIndex = 0 := by decide!
  have hc : (run page endpointTrace).crossfader = crossfaderFor 0 := by decide!
  have hv0 : ((run page endpointTrace).decks 0).volumeSlider = 1 := by decide!
  have hv1 : ((run page endpointTrace).decks (1 - 0)).volumeSlider = 3 / 5 := by decide!
  have h := crossfader_endpoints_in_doubles (run page endpointTrace) 0 hc
  refine ⟨by rw [hi]; exact hc, ?_, ?_⟩
  · rw [h.2.2.2.2.2.2.1, hv0, parseFloat_one]
  · have hb := (h.2.2.2.2.2.2.2.2 (by rw [hv1]; norm_num) (by rw [hv1]; norm_num)).2
    rw [hv1] at hb
    have e : (1 - 0 : Fin 2) = 1 := by decide
    rw [e] at hb
    refine lt_of_lt_of_le hb ?_
    push_cast
    norm_num

/-! ## C18: operations on a deck that is not ready -/

theorem setDeck_decks_self (s : State) (i : Fin 2) : s.setDeck i (s.decks i) = s := by
  unfold State.setDeck State.decks
  split <;> simp_all

/-- C18: on a deck that is not ready (duration 0: nothing loaded, or not yet
decoded), play/pause, cue, loop-in, loop-out, beat-length loop and hot-cue
trigger each leave the whole page state, hence the deck's playing flag, loop
points, looping flag, hot cues, cue point and pitch, exactly as it was. -/
theorem not_ready_operations_are_noops (s : State) (i : Fin 2)
    (hnot : (s.decks i).wavesurfer.duration = 0) :
    step s (.playPauseClick i) = s
    ∧ step s (.cueClick i) = s
    ∧ step s (.loopInClick i) = s
    ∧ step s (.loopOutClick i) = s
    ∧ (∀ beats, step s (.loopLengthChange i beats) = s)
    ∧ (∀ cueNum, step s (.hotCueClick i cueNum) = s) := by
  refine ⟨?_, ?_, ?_, ?_, ?_, ?_⟩
  · simp [step, State.onDeck, Deck.playPauseClick, hnot, setDeck_decks_self]
  · simp [step, cueClick, Deck.cueClick, hnot, setDeck_decks_self]
  · simp [step, State.onDeck, Deck.loopInClick, hnot, setDeck_decks_self]
  · simp [step, State.onDeck, Deck.loopOutClick, hnot, setDeck_decks_self]
  · intro beats
    simp only [step, State.onDeck, Deck.loopLengthChange, hnot]
    cases (s.decks i).bpm <;> simp [setDeck_decks_self]
  · intro cueNum
    simp [step, hotCueClick, Deck.hotCueClick, hnot, setDeck_decks_self]

/-- C18 on the freshly loaded page, deck 1. -/
theorem not_ready_operations_are_noops_witness :
    (page.decks 0).wavesurfer.duration = 0
    ∧ step page (.playPauseClick 0) = page
    ∧ step page (.cueClick 0) = page
    ∧ step page (.hotCueClick 0 "1") = page := by
  have h := not_ready_operations_are_noops page 0 (by decide!)
  exact ⟨by decide!, h.1, h.2.1, h.2.2.2.2.2 "1"⟩

/-! ## C16: the crossfade trigger window -/

theorem tickCrossfade_outside (s : State) (a : Fin 2)
    (h : (s.decks a).wavesurfer.duration - (s.decks a).wavesurfer.currentTime ≤ 0.5
      ∨ 7 < (s.decks a).wavesurfer.duration - (s.decks a).wavesurfer.currentTime) :
    tickCrossfade s a = .ok () s := by
  unfold tickCrossfade
  simp only
  rw [if_neg]
  intro hc
  simp only [Bool.and_eq_true, decide_eq_true_eq, crossfadeDuration, gt_iff_lt] at hc
  obtain ⟨h1, h2⟩ := hc
  rcases h with h | h
  · exact absurd h2 (not_lt.mpr h)
  · norm_num at h1
    linarith

@[simp] theorem setDeck_crossfadeUiIntervals (s : State) (i : Fin 2) (d : Deck) :
    (s.setDeck i d).crossfadeUiIntervals = s.crossfadeUiIntervals := by
  unfold State.setDeck; split <;> rfl

@[simp] theorem setDeck_flipTimeouts (s : State) (i : Fin 2) (d : Deck) :
    (s.setDeck i d).flipTimeouts = s.flipTimeouts := by
  unfold State.setDeck; split <;> rfl

@[simp] theorem setDeck_crossfader (s : State) (i : Fin 2) (d : Deck) :
    (s.setDeck i d).crossfader = s.crossfader := by
  unfold State.setDeck; split <;> rfl

/-- What a successful `loadNextTrackForAutomix` leaves behind. -/
theorem loadNext_true_props (s s2 : State) (k : Fin 2)
    (h : loadNextTrackForAutomix s k = .ok true s2) :
    s2.decks (1 - k) = s.decks (1 - k)
    ∧ s2.crossfadeUiIntervals = s.crossfadeUiIntervals
    ∧ s2.flipTimeouts = s.flipTimeouts
    ∧ (s2.decks k).wavesurfer.duration = 0
    ∧ (s2.decks k).wavesurfer.currentTime = 0
    ∧ s2.currentActiveDeckIndex = s.currentActiveDeckIndex
    ∧ s2.crossfader = s.crossfader := by
  rcases loadNext_cases s k with h1 | h1 | ⟨idx, file, h1⟩
  · rw [h1] at h; simp at h
  · rw [h1] at h; simp at h
  · rw [h1] at h
    simp only [Outcome.ok.injEq, true_and] at h
    subst h
    refine ⟨?_, ?_, ?_, ?_, ?_, ?_, ?_⟩
    · rw [decks_setDeck_opposite]; simp [State.decks]
    · simp
    · simp
    · simp [Deck.loadFile, Deck.setupWaveform, WaveSurfer.load, WaveSurfer.create]
    · simp [Deck.loadFile, Deck.setupWaveform, WaveSurfer.load, WaveSurfer.create]
    · simp
    · simp

/-- A failed or faulting `loadNextTrackForAutomix` leaves the state as it was. -/
theorem loadNext_not_true_state (s : State) (k : Fin 2)
    (h : ∀ s2, loadNextTrackForAutomix s k ≠ .ok true s2) :
    (loadNextTrackForAutomix s k).state = s := by
  rcases loadNext_cases s k with h1 | h1 | ⟨idx, file, h1⟩
  · rw [h1]; rfl
  · rw [h1]; rfl
  · exact absurd h1 (h _)

theorem playOnDeck_decks (s : State) (i j : Fin 2) :
    (playOnDeck s i).decks j
      = (s.setDeck i { s.decks i with wavesurfer := (s.decks i).wavesurfer.play, isPlaying := true }).decks j :=
  rfl

theorem playOnDeck_props (s : State) (i : Fin 2) :
    (playOnDeck s i).decks (1 - i) = s.decks (1 - i)
    ∧ (playOnDeck s i).crossfadeUiIntervals = s.crossfadeUiIntervals
    ∧ (playOnDeck s i).flipTimeouts = s.flipTimeouts
    ∧ ((playOnDeck s i).decks i).wavesurfer.duration = (s.decks i).wavesurfer.duration
    ∧ ((playOnDeck s i).decks i).wavesurfer.currentTime = (s.decks i).wavesurfer.currentTime := by
  refine ⟨?_, ?_, ?_, ?_, ?_⟩
  · rw [playOnDeck_decks, decks_setDeck_opposite]
  · simp [playOnDeck]
  · simp [playOnDeck]
  · rw [playOnDeck_decks, decks_setDeck_same]; rfl
  · rw [playOnDeck_decks, decks_setDeck_same]; rfl

/-- C16: if at a monitor tick the active deck's remaining time `r` is at most
0.5 or more than 7 (`= crossfadeDuration + 2`), the tick leaves the inactive
deck as it was (no playback is started on it) and schedules neither a UI
interpolation interval nor an end-of-crossfade timeout; so a crossfade begins
only if `0.5 < r ≤ 7`. -/
theorem no_crossfade_outside_window (s : State)
    (hout : (s.decks s.currentActiveDeckIndex).wavesurfer.duration
          - (s.decks s.currentActiveDeckIndex).wavesurfer.currentTime ≤ 0.5
      ∨ 7 < (s.decks s.currentActiveDeckIndex).wavesurfer.duration
          - (s.decks s.currentActiveDeckIndex).wavesurfer.currentTime) :
    crossfadeDuration + 2 = 7
    ∧ (monitorTick s).state.decks (1 - s.currentActiveDeckIndex)
        = s.decks (1 - s.currentActiveDeckIndex)
    ∧ (monitorTick s).state.crossfadeUiIntervals = s.crossfadeUiIntervals
    ∧ (monitorTick s).state.flipTimeouts = s.flipTimeouts := by
  refine ⟨by norm_num [crossfadeDuration], ?_⟩
  unfold monitorTick
  split
  · exact ⟨rfl, rfl, rfl⟩
  · simp only
    split
    · generalize hst : s.setDeck s.currentActiveDeckIndex
        { s.decks s.currentActiveDeckIndex with wavesurfer := (s.decks s.currentActiveDeckIndex).wavesurfer.stop, isPlaying := false } = s0
      have h0 : s0.decks (1 - s.currentActiveDeckIndex) = s.decks (1 - s.currentActiveDeckIndex)
          ∧ s0.crossfadeUiIntervals = s.crossfadeUiIntervals
          ∧ s0.flipTimeouts = s.flipTimeouts := by
        rw [← hst]; simp
      cases hl : loadNextTrackForAutomix s0 s.currentActiveDeckIndex with
      | typeError s1 =>
        have hs := loadNext_not_true_state s0 s.currentActiveDeckIndex (by rw [hl]; simp)
        rw [hl] at hs
        simp only [Outcome.state] at hs ⊢
        rw [hs]; exact h0
      | ok v s1 =>
        cases v with
        | false =>
          have hs := loadNext_not_true_state s0 s.currentActiveDeckIndex (by rw [hl]; simp)
          rw [hl] at hs
          simp only [Outcome.state] at hs ⊢
          rw [hs]; exact h0
        | true =>
          obtain ⟨p1, p2, p3, p4, p5, _, _⟩ := loadNext_true_props s0 s1 _ hl
          obtain ⟨q1, q2, q3, q4, q5⟩ := playOnDeck_props s1 s.currentActiveDeckIndex
          simp only
          rw [tickCrossfade_outside]
          · simp only [Outcome.state]
            exact ⟨by rw [q1, p1, h0.1], by rw [q2, p2, h0.2.1], by rw [q3, p3, h0.2.2]⟩
          · left
            rw [q4, q5, p4, p5]; norm_num
    · rw [tickCrossfade_outside s _ hout]
      exact ⟨rfl, rfl, rfl⟩

/-- C16 with deck 1 at 100 s of 200 s (`r = 100 > 7`). -/
theorem no_crossfade_outside_window_witness :
    (7 : ℚ) < ((run page midTrackTrace).decks (run page midTrackTrace).currentActiveDeckIndex).wavesurfer.duration
        - ((run page midTrackTrace).decks (run page midTrackTrace).currentActiveDeckIndex).wavesurfer.currentTime
    ∧ (run page midTrackTrace).automixInterval = true
    ∧ (monitorTick (run page midTrackTrace)).state.crossfadeUiIntervals = []
    ∧ (monitorTick (run page midTrackTrace)).state.flipTimeouts = [] := by
  have h := no_crossfade_outside_window (run page midTrackTrace) (Or.inr (by decide!))
  refine ⟨by decide!, by decide!, ?_, ?_⟩
  · rw [h.2.2.1]; decide!
  · rw [h.2.2.2]; decide!

/-! ## C17: completion of a crossfade -/

theorem run_append (s : State) (xs ys : List Event) : run s (xs ++ ys) = run (run s xs) ys := by
  simp [run, List.foldl_append]

theorem crossfadeUiTick_step (s : State) (k : Nat) (c0 tg : ℚ) (n : Nat)
    (h : s.crossfadeUiIntervals[k]? = some ⟨c0, tg, n⟩) (hn : n + 1 ≤ steps) :
    (crossfadeUiTick s k).crossfader = c0 + (tg - c0) * (((n + 1 : ℕ) : ℚ) / (steps : ℚ))
    ∧ (crossfadeUiTick s k).crossfadeUiIntervals[k]? = some ⟨c0, tg, n + 1⟩
    ∧ (crossfadeUiTick s k).decks0 = s.decks0
    ∧ (crossfadeUiTick s k).decks1 = s.decks1
    ∧ (crossfadeUiTick s k).currentActiveDeckIndex = s.currentActiveDeckIndex
    ∧ (crossfadeUiTick s k).flipTimeouts = s.flipTimeouts := by
  have hk : k < s.crossfadeUiIntervals.length := by
    by_contra hc
    rw [List.getElem?_eq_none (by omega)] at h
    cases h
  have hc : crossfadeUiTick s k = { s with crossfader := c0 + (tg - c0) * (((n + 1 : ℕ) : ℚ) / (steps : ℚ)), crossfadeUiIntervals := s.crossfadeUiIntervals.set k ⟨c0, tg, n + 1⟩ } := by
    unfold crossfadeUiTick
    simp only [h, hn, if_true]
  rw [hc]
  refine ⟨rfl, ?_, rfl, rfl, rfl, rfl⟩
  simp [List.getElem?_set, hk]

/-- After `m` firings of UI interval `k` -/
theorem uiTicks_props (m : Nat) (s : State) (k : Nat) (c0 tg : ℚ) (n : Nat)
    (h : s.crossfadeUiIntervals[k]? = some ⟨c0, tg, n⟩) (hn : n + m ≤ steps) :
    (run s (List.replicate m (.crossfadeUiTick k))).crossfadeUiIntervals[k]? = some ⟨c0, tg, n + m⟩
    ∧ (run s (List.replicate m (.crossfadeUiTick k))).decks0 = s.decks0
    ∧ (run s (List.replicate m (.crossfadeUiTick k))).decks1 = s.decks1
    ∧ (run s (List.replicate m (.crossfadeUiTick k))).currentActiveDeckIndex
        = s.currentActiveDeckIndex
    ∧ (run s (List.replicate m (.crossfadeUiTick k))).flipTimeouts = s.flipTimeouts
    ∧ (m = 0 → (run s (List.replicate m (.crossfadeUiTick k))).crossfader = s.crossfader)
    ∧ (0 < m → (run s (List.replicate m (.crossfadeUiTick k))).crossfader
        = c0 + (tg - c0) * (((n + m : ℕ) : ℚ) / (steps : ℚ))) := by
  induction m generalizing s n with
  | zero => exact ⟨h, rfl, rfl, rfl, rfl, fun _ => rfl, fun h0 => absurd h0 (lt_irrefl 0)⟩
  | succ m ih =>
    obtain ⟨t1, t2, t3, t4, t5, t6⟩ := crossfadeUiTick_step s k c0 tg n h (by omega)
    have hrun : run s (List.replicate (m + 1) (.crossfadeUiTick k))
        = run (crossfadeUiTick s k) (List.replicate m (.crossfadeUiTick k)) := by
      simp [run, List.replicate_succ, step]
    obtain ⟨i1, i2, i3, i4, i5, i6, i7⟩ := ih (crossfadeUiTick s k) (n + 1) t2 (by omega)
    rw [hrun]
    have hnm : n + 1 + m = n + (m + 1) := by omega
    refine ⟨by rw [i1, hnm], by rw [i2, t3], by rw [i3, t4], by rw [i4, t5], by rw [i5, t6],
      fun h0 => absurd h0 (Nat.succ_ne_zero m), fun _ => ?_⟩
    rcases Nat.eq_zero_or_pos m with hm | hm
    · rw [i6 hm, t1, hm]
    · rw [i7 hm, hnm]

theorem flipTimeout_props (s : State) (m : Nat) (a : Fin 2) (h : s.flipTimeouts[m]? = some a) :
    ((flipTimeout s m).decks a).isPlaying = false
    ∧ (flipTimeout s m).decks (1 - a) = s.decks (1 - a)
    ∧ (flipTimeout s m).currentActiveDeckIndex = 1 - s.currentActiveDeckIndex
    ∧ (flipTimeout s m).crossfader = s.crossfader
    ∧ (flipTimeout s m).crossfadeUiIntervals = s.crossfadeUiIntervals := by
  unfold flipTimeout
  simp only [h]
  refine ⟨?_, ?_, ?_, ?_, ?_⟩
  · show ((s.setDeck a (s.decks a).pauseTimeout).decks a).isPlaying = false
    rw [decks_setDeck_same]; rfl
  · show (s.setDeck a (s.decks a).pauseTimeout).decks (1 - a) = s.decks (1 - a)
    rw [decks_setDeck_opposite]
  · show 1 - (s.setDeck a (s.decks a).pauseTimeout).currentActiveDeckIndex = _
    rw [setDeck_currentActiveDeckIndex]
  · exact setDeck_crossfader _ _ _
  · exact setDeck_crossfadeUiIntervals _ _ _

theorem one_sub_one_sub (a : Fin 2) : 1 - (1 - a) = a := by
  have h : ∀ j : Fin 2, 1 - (1 - j) = j := by decide
  exact h a

/-- The monitor tick that triggers a crossfade. -/
theorem monitorTick_triggers (s : State)
    (hrun : s.automixInterval = true)
    (hpos : 0 ≤ (s.decks s.currentActiveDeckIndex).wavesurfer.currentTime)
    (hlow : 0.5 < (s.decks s.currentActiveDeckIndex).wavesurfer.duration
      - (s.decks s.currentActiveDeckIndex).wavesurfer.currentTime)
    (hhigh : (s.decks s.currentActiveDeckIndex).wavesurfer.duration
      - (s.decks s.currentActiveDeckIndex).wavesurfer.currentTime ≤ crossfadeDuration + 2)
    (hbuf : (s.decks (1 - s.currentActiveDeckIndex)).audioBuffer ≠ none)
    (hdur : 0 < (s.decks (1 - s.currentActiveDeckIndex)).wavesurfer.duration)
    (hidle : (s.decks (1 - s.currentActiveDeckIndex)).isPlaying = false) :
    monitorTick s = .ok () (beginCrossfade s s.currentActiveDeckIndex)
    ∧ (beginCrossfade s s.currentActiveDeckIndex).crossfadeUiIntervals
        = s.crossfadeUiIntervals ++ [⟨s.crossfader, crossfaderFor (1 - s.currentActiveDeckIndex), 0⟩]
    ∧ (beginCrossfade s s.currentActiveDeckIndex).flipTimeouts
        = s.flipTimeouts ++ [s.currentActiveDeckIndex]
    ∧ (beginCrossfade s s.currentActiveDeckIndex).currentActiveDeckIndex = s.currentActiveDeckIndex
    ∧ ((beginCrossfade s s.currentActiveDeckIndex).decks (1 - s.currentActiveDeckIndex)).isPlaying
        = true
    ∧ ((beginCrossfade s s.currentActiveDeckIndex).decks (1 - s.currentActiveDeckIndex)).volumeSlider
        = (s.decks (1 - s.currentActiveDeckIndex)).volumeSlider := by
  have hd0 : (s.decks s.currentActiveDeckIndex).wavesurfer.duration ≠ 0 := by
    intro h0; rw [h0] at hlow; norm_num at hlow; linarith
  have hend : ¬ ((s.decks s.currentActiveDeckIndex).wavesurfer.currentTime
      ≥ (s.decks s.currentActiveDeckIndex).wavesurfer.duration - 0.1) := by
    intro h1; norm_num at hlow h1; linarith
  have hbs : (s.decks (1 - s.currentActiveDeckIndex)).audioBuffer.isSome = true := by
    cases hb : (s.decks (1 - s.currentActiveDeckIndex)).audioBuffer with
    | none => exact absurd hb hbuf
    | some b => rfl
  have hbn : (s.decks (1 - s.currentActiveDeckIndex)).audioBuffer.isNone = false := by
    cases hb : (s.decks (1 - s.currentActiveDeckIndex)).audioBuffer with
    | none => exact absurd hb hbuf
    | some b => rfl
  have hbegin : beginCrossfade s s.currentActiveDeckIndex
      = { (s.setDeck (1 - s.currentActiveDeckIndex) { s.decks (1 - s.currentActiveDeckIndex) with wavesurfer := (s.decks (1 - s.currentActiveDeckIndex)).wavesurfer.play, isPlaying := true }) with crossfadeUiIntervals := s.crossfadeUiIntervals ++ [⟨s.crossfader, crossfaderFor (1 - s.currentActiveDeckIndex), 0⟩], flipTimeouts := s.flipTimeouts ++ [s.currentActiveDeckIndex] } := by
    unfold beginCrossfade
    simp only [hbs, hdur, hidle, gt_iff_lt, decide_True, Bool.not_false, Bool.and_self, if_true,
      setDeck_crossfader, setDeck_crossfadeUiIntervals, setDeck_flipTimeouts]
  refine ⟨?_, ?_, ?_, ?_, ?_, ?_⟩
  · unfold monitorTick
    simp only [hrun, Bool.not_true, Bool.false_eq_true, if_false]
    rw [if_neg (by simp [hd0, hend])]
    unfold tickCrossfade
    simp only
    rw [if_pos (by simp [hlow, hhigh])]
    rw [if_neg (by simp [hbn, ne_of_gt hdur])]
  · rw [hbegin]
  · rw [hbegin]
  · rw [hbegin]; simp
  · rw [hbegin]
    show ((s.setDeck (1 - s.currentActiveDeckIndex) _).decks (1 - s.currentActiveDeckIndex)).isPlaying = true
    rw [decks_setDeck_same]
  · rw [hbegin]
    show ((s.setDeck (1 - s.currentActiveDeckIndex) _).decks (1 - s.currentActiveDeckIndex)).volumeSlider = _
    rw [decks_setDeck_same]

theorem decks_congr (s t : State) (h0 : t.decks0 = s.decks0) (h1 : t.decks1 = s.decks1)
    (i : Fin 2) : t.decks i = s.decks i := by
  unfold State.decks; rw [h0, h1]

/-- C17: let a monitor tick trigger a crossfade (interval installed, active
deck with remaining time in `(0.5, 7]`, inactive deck decoded, ready and not
playing).  Once the crossfade's own callbacks have run, the 50 firings of its
UI interval and its end-of-crossfade timeout, the timeout after any number
`j ≤ 50` of the firings and no other callback changing the state in between,
the previously active deck is paused, the other deck is playing, the active
index is 1 minus its old value, the crossfader equals the new active deck's
index, that deck's gain is its own fader volume and the old deck's gain 0. -/
theorem crossfade_completes (s : State) (j : Nat) (hj : j ≤ steps)
    (hrun : s.automixInterval = true)
    (hpos : 0 ≤ (s.decks s.currentActiveDeckIndex).wavesurfer.currentTime)
    (hlow : 0.5 < (s.decks s.currentActiveDeckIndex).wavesurfer.duration
      - (s.decks s.currentActiveDeckIndex).wavesurfer.currentTime)
    (hhigh : (s.decks s.currentActiveDeckIndex).wavesurfer.duration
      - (s.decks s.currentActiveDeckIndex).wavesurfer.currentTime ≤ crossfadeDuration + 2)
    (hbuf : (s.decks (1 - s.currentActiveDeckIndex)).audioBuffer ≠ none)
    (hdur : 0 < (s.decks (1 - s.currentActiveDeckIndex)).wavesurfer.duration)
    (hidle : (s.decks (1 - s.currentActiveDeckIndex)).isPlaying = false) :
    ((run (monitorTick s).state (completionEvents s j)).decks s.currentActiveDeckIndex).isPlaying
        = false
    ∧ ((run (monitorTick s).state (completionEvents s j)).decks
          (1 - s.currentActiveDeckIndex)).isPlaying = true
    ∧ (run (monitorTick s).state (completionEvents s j)).currentActiveDeckIndex
        = 1 - s.currentActiveDeckIndex
    ∧ (run (monitorTick s).state (completionEvents s j)).crossfader
        = crossfaderFor (1 - s.currentActiveDeckIndex)
    ∧ (run (monitorTick s).state (completionEvents s j)).deckGain (1 - s.currentActiveDeckIndex)
        = (((s.decks (1 - s.currentActiveDeckIndex)).volumeSlider : ℚ) : ℝ)
    ∧ (run (monitorTick s).state (completionEvents s j)).deckGain s.currentActiveDeckIndex = 0 := by
  obtain ⟨ht, hui, hfl, hidx, hplay, hvol⟩ :=
    monitorTick_triggers s hrun hpos hlow hhigh hbuf hdur hidle
  rw [ht]
  simp only [Outcome.state]
  generalize hs1 : beginCrossfade s s.currentActiveDeckIndex = s1 at hui hfl hidx hplay hvol
  generalize ha : s.currentActiveDeckIndex = a at hui hfl hidx hplay hvol
  have hk : s1.crossfadeUiIntervals[s.crossfadeUiIntervals.length]?
      = some ⟨s.crossfader, crossfaderFor (1 - a), 0⟩ := by
    rw [hui]; simp
  have hm : s1.flipTimeouts[s.flipTimeouts.length]? = some a := by
    rw [hfl]; simp
  unfold completionEvents
  rw [run_append, run_append]
  obtain ⟨a1, a2, a3, a4, a5, a6, a7⟩ := uiTicks_props j s1 s.crossfadeUiIntervals.length
    s.crossfader (crossfaderFor (1 - a)) 0 hk (by omega)
  generalize run s1 (List.replicate j (Event.crossfadeUiTick s.crossfadeUiIntervals.length)) = sA
    at a1 a2 a3 a4 a5 a6 a7
  have hflip : run sA [Event.flipTimeout s.flipTimeouts.length]
      = flipTimeout sA s.flipTimeouts.length := rfl
  rw [hflip]
  obtain ⟨b1, b2, b3, b4, b5⟩ := flipTimeout_props sA s.flipTimeouts.length a (by rw [a5]; exact hm)
  generalize flipTimeout sA s.flipTimeouts.length = sB at b1 b2 b3 b4 b5
  obtain ⟨c1, c2, c3, c4, c5, c6, c7⟩ := uiTicks_props (steps - j) sB s.crossfadeUiIntervals.length
    s.crossfader (crossfaderFor (1 - a)) (0 + j) (by rw [b5]; exact a1) (by omega)
  generalize run sB (List.replicate (steps - j) (Event.crossfadeUiTick s.crossfadeUiIntervals.length))
    = sC at c1 c2 c3 c4 c5 c6 c7
  have hone : (((steps : ℕ) : ℚ) / (steps : ℚ)) = 1 := by norm_num [steps]
  have hcf : sC.crossfader = crossfaderFor (1 - a) := by
    rcases Nat.eq_zero_or_pos (steps - j) with h0 | h0
    · have hjs : 0 + j = steps := by omega
      have hjpos : 0 < j := by have : 0 < steps := by decide
                               omega
      rw [c6 h0, b4, a7 hjpos, hjs, hone]; ring
    · have hjs : 0 + j + (steps - j) = steps := by omega
      rw [c7 h0, hjs, hone]; ring
  have hdeckC : ∀ i, sC.decks i = sB.decks i := decks_congr sB sC c2 c3
  have hdeckA : ∀ i, sA.decks i = s1.decks i := decks_congr s1 sA a2 a3
  have hg := deckGain_of_crossfaderFor sC (1 - a) hcf
  rw [one_sub_one_sub] at hg
  refine ⟨?_, ?_, ?_, hcf, ?_, hg.2⟩
  · rw [hdeckC, b1]
  · rw [hdeckC, b2, hdeckA, hplay]
  · rw [c4, b3, a4, hidx]
  · rw [hg.1, hdeckC, b2, hdeckA, hvol]

/-- C17 on the crossfade from deck 1 (`trackX`, 5 s left) to deck 2 (`trackY`). -/
theorem crossfade_completes_witness :
    (run page beforeCrossfadeTrace).automixInterval = true
    ∧ (run page beforeCrossfadeTrace).currentActiveDeckIndex = 0
    ∧ ((run (monitorTick (run page beforeCrossfadeTrace)).state
          (completionEvents (run page beforeCrossfadeTrace) 50)).decks 0).isPlaying = false
    ∧ ((run (monitorTick (run page beforeCrossfadeTrace)).state
          (completionEvents (run page beforeCrossfadeTrace) 50)).decks 1).isPlaying = true
    ∧ (run (monitorTick (run page beforeCrossfadeTrace)).state
          (completionEvents (run page beforeCrossfadeTrace) 50)).currentActiveDeckIndex = 1
    ∧ (run (monitorTick (run page beforeCrossfadeTrace)).state
          (completionEvents (run page beforeCrossfadeTrace) 50)).crossfader = 1 := by
  have hidx : (run page beforeCrossfadeTrace).currentActiveDeckIndex = 0 := by decide!
  have h := crossfade_completes (run page beforeCrossfadeTrace) 50 (by decide)
    (by decide!) (by decide!) (by decide!) (by decide!) (by decide!) (by decide!) (by decide!)
  rw [hidx] at h
  exact ⟨by decide!, hidx, h.1, h.2.1, h.2.2.1, h.2.2.2.1⟩


/-- Supporting fact for C17: while both decks play during a crossfade, a
monitor tick changes nothing. -/
theorem monitorTick_during_crossfade (s : State)
    (hd : (s.decks s.currentActiveDeckIndex).wavesurfer.duration ≠ 0)
    (hp : (s.decks s.currentActiveDeckIndex).isPlaying = true)
    (hbuf : (s.decks (1 - s.currentActiveDeckIndex)).audioBuffer ≠ none)
    (hdur : (s.decks (1 - s.currentActiveDeckIndex)).wavesurfer.duration ≠ 0)
    (hplay : (s.decks (1 - s.currentActiveDeckIndex)).isPlaying = true) :
    monitorTick s = .ok () s := by
  have hbn : (s.decks (1 - s.currentActiveDeckIndex)).audioBuffer.isNone = false := by
    cases hb : (s.decks (1 - s.currentActiveDeckIndex)).audioBuffer with
    | none => exact absurd hb hbuf
    | some b => rfl
  have hbegin : beginCrossfade s s.currentActiveDeckIndex = s := by
    unfold beginCrossfade
    simp [hplay]
  unfold monitorTick
  split
  · rfl
  · simp only
    rw [if_neg (by simp [hd, hp])]
    unfold tickCrossfade
    simp only
    split
    · rw [if_neg (by simp [hbn, hdur]), hbegin]
    · rfl


/-! ## C19: looping and loop points -/

/-- C19 (code defect): deck 1 loops `[0, 2]` and playback is at 9 s.  The
loop-in button sets `loopStart = 9`, beyond `loopEnd = 2`; `updateLoop` clears
the regions, but `isLooping` stays true: the deck is looping with
`loopStart ≥ loopEnd`. -/
theorem looping_with_loop_in_after_loop_out :
    ((run page loopingTrace).decks 0).isLooping = true
    ∧ ((run page loopingTrace).decks 0).loopStart = some 0
    ∧ ((run page loopingTrace).decks 0).loopEnd = some 2
    ∧ ((run page (loopingTrace ++ [.loopInClick 0])).decks 0).isLooping = true
    ∧ ((run page (loopingTrace ++ [.loopInClick 0])).decks 0).loopStart = some 9
    ∧ ((run page (loopingTrace ++ [.loopInClick 0])).decks 0).loopEnd = some 2
    ∧ ((run page (loopingTrace ++ [.loopInClick 0])).decks 0).loopPointsValid = false
    ∧ ((run page (loopingTrace ++ [.loopInClick 0])).decks 0).wavesurfer.regions = [] := by
  decide!

/-! ## C20: the seek issued by the cue button -/

/-- Supporting fact for C20: while the cue point lies within the loaded
track, `0 ≤ cuePoint ≤ duration`, every fraction the cue button passes to
`seekTo` is in `[0, 1]`. -/
theorem cueSeeks_within_unit (d : Deck)
    (h0 : 0 ≤ d.cuePoint) (h1 : d.cuePoint ≤ d.wavesurfer.duration) :
    ∀ f ∈ d.cueSeeks, 0 ≤ f ∧ f ≤ 1 := by
  intro f hf
  unfold Deck.cueSeeks at hf
  by_cases hd : d.wavesurfer.duration > 0
  · have hfr : f = d.cuePoint / d.wavesurfer.duration := by
      simp only [hd, decide_True, if_true] at hf
      split at hf <;> simp at hf <;> exact hf
    rw [hfr]
    exact ⟨div_nonneg h0 (le_of_lt hd), (div_le_one hd).mpr h1⟩
  · simp [hd] at hf


/-- C20 (code defect): the cue point is set at 150 s on the 200 s `trackX`;
`loadFile` does not reset it, so after `trackY` (90 s) is loaded on the same
deck the cue button calls `seekTo(150 / 90)`, a fraction `5/3 > 1`, and the
engine is sent to 150 s on a 90 s track. -/
theorem cue_seeks_beyond_end_after_reload :
    ((run page [.fileInputChange 0 [trackX], .wsReady 0, .wsInteraction 0 150]).decks 0).cuePoint
        = 150
    ∧ ((run page [.fileInputChange 0 [trackX], .wsReady 0,
          .wsInteraction 0 150]).decks 0).wavesurfer.duration = 200
    ∧ ((run page staleCueTrace).decks 0).cuePoint = 150
    ∧ ((run page staleCueTrace).decks 0).wavesurfer.duration = 90
    ∧ ((run page staleCueTrace).decks 0).cueSeeks = [5 / 3]
    ∧ ((run page (staleCueTrace ++ [.cueClick 0])).decks 0).wavesurfer.currentTime = 150 := by
  decide!


/-! ## C21: the crossfader UI interpolation -/

theorem list_set_self {α : Type} (l : List α) (k : Nat) (x : α) (h : l[k]? = some x) :
    l.set k x = l := by
  apply List.ext_getElem?
  intro j
  rw [List.getElem?_set]
  split
  · rename_i hkj
    subst hkj
    split
    · exact h.symm
    · rename_i hlt
      rw [List.getElem?_eq_none (by omega)] at h
      cases h
  · rfl

theorem list_eraseIdx_set {α : Type} (l : List α) (k : Nat) (x : α) :
    (l.set k x).eraseIdx k = l.eraseIdx k := by
  apply List.ext_getElem?
  intro j
  rw [List.getElem?_eraseIdx, List.getElem?_eraseIdx]
  split
  · rw [List.getElem?_set_ne (by omega)]
  · rw [List.getElem?_set_ne (by omega)]

/-- The pending interval list after `m` firings of interval `k`. -/
theorem uiTicks_list (m : Nat) (s : State) (k : Nat) (c0 tg : ℚ) (n : Nat)
    (h : s.crossfadeUiIntervals[k]? = some ⟨c0, tg, n⟩) (hn : n + m ≤ steps) :
    (run s (List.replicate m (.crossfadeUiTick k))).crossfadeUiIntervals
      = s.crossfadeUiIntervals.set k ⟨c0, tg, n + m⟩ := by
  induction m generalizing s n with
  | zero => exact (list_set_self _ _ _ h).symm
  | succ m ih =>
    have hstep : crossfadeUiTick s k = { s with crossfader := c0 + (tg - c0) * (((n + 1 : ℕ) : ℚ) / (steps : ℚ)), crossfadeUiIntervals := s.crossfadeUiIntervals.set k ⟨c0, tg, n + 1⟩ } := by
      unfold crossfadeUiTick
      have hn1 : n + 1 ≤ steps := by omega
      simp only [h, hn1, if_true]
    have hrun : run s (List.replicate (m + 1) (.crossfadeUiTick k))
        = run (crossfadeUiTick s k) (List.replicate m (.crossfadeUiTick k)) := by
      simp [run, List.replicate_succ, step]
    obtain ⟨_, t2, _⟩ := crossfadeUiTick_step s k c0 tg n h (by omega)
    rw [hrun, ih (crossfadeUiTick s k) (n + 1) t2 (by omega), hstep]
    simp only [List.set_set]
    have : n + 1 + m = n + (m + 1) := by omega
    rw [this]

/-- The firing after the last step: the interval is cleared, value = target. -/
theorem crossfadeUiTick_stop (s : State) (k : Nat) (c0 tg : ℚ)
    (h : s.crossfadeUiIntervals[k]? = some ⟨c0, tg, steps⟩) :
    crossfadeUiTick s k
      = { s with crossfader := tg, crossfadeUiIntervals := s.crossfadeUiIntervals.eraseIdx k } := by
  unfold crossfadeUiTick
  simp only [h]
  rw [if_neg (by omega)]

theorem run_singleton (s : State) (e : Event) : run s [e] = step s e := rfl

theorem step_crossfadeUiTick (s : State) (k : Nat) :
    step s (.crossfadeUiTick k) = crossfadeUiTick s k := rfl

theorem interpolation_between (start target lam : ℚ) (h0 : 0 ≤ lam) (h1 : lam ≤ 1) :
    min start target ≤ start + (target - start) * lam
    ∧ start + (target - start) * lam ≤ max start target := by
  rcases le_total start target with h | h
  · rw [min_eq_left h, max_eq_right h]
    constructor
    · nlinarith [mul_nonneg (sub_nonneg.mpr h) h0]
    · nlinarith [mul_nonneg (sub_nonneg.mpr h) (sub_nonneg.mpr h1)]
  · rw [min_eq_right h, max_eq_left h]
    constructor
    · nlinarith [mul_nonneg (sub_nonneg.mpr h) (sub_nonneg.mpr h1)]
    · nlinarith [mul_nonneg (sub_nonneg.mpr h) h0]

theorem interpolation_distance (start target lam : ℚ) (h1 : lam ≤ 1) :
    |target - (start + (target - start) * lam)| = |target - start| * (1 - lam) := by
  have : target - (start + (target - start) * lam) = (target - start) * (1 - lam) := by ring
  rw [this, abs_mul, abs_of_nonneg (sub_nonneg.mpr h1)]

/-- C21: from a state in which UI interval `i` has just been created with
values `start` and `target`, after `k` firings (`1 ≤ k ≤ 50`) the crossfader
is `start + (target - start) * k / 50`; it lies between `start` and `target`,
later steps are never farther from the target, at `k = 50` it equals the
target, the interval is still pending through step 50, and the firing after
step 50 removes it and leaves the crossfader at the target. -/
theorem crossfader_ui_interpolation (s : State) (i k : Nat) (start target : ℚ)
    (h : s.crossfadeUiIntervals[i]? = some ⟨start, target, 0⟩) (hk1 : 1 ≤ k) (hk : k ≤ 50) :
    (run s (List.replicate k (.crossfadeUiTick i))).crossfader
        = start + (target - start) * ((k : ℚ) / 50)
    ∧ min start target ≤ (run s (List.replicate k (.crossfadeUiTick i))).crossfader
    ∧ (run s (List.replicate k (.crossfadeUiTick i))).crossfader ≤ max start target
    ∧ (∀ k2, k ≤ k2 ∧ k2 ≤ 50 →
        |target - (run s (List.replicate k2 (.crossfadeUiTick i))).crossfader|
          ≤ |target - (run s (List.replicate k (.crossfadeUiTick i))).crossfader|)
    ∧ (run s (List.replicate 50 (.crossfadeUiTick i))).crossfader = target
    ∧ (run s (List.replicate k (.crossfadeUiTick i))).crossfadeUiIntervals[i]?
        = some ⟨start, target, k⟩
    ∧ (run s (List.replicate 51 (.crossfadeUiTick i))).crossfader = target
    ∧ (run s (List.replicate 51 (.crossfadeUiTick i))).crossfadeUiIntervals
        = s.crossfadeUiIntervals.eraseIdx i := by
  have hsteps : steps = 50 := rfl
  have hval : ∀ m, 1 ≤ m → m ≤ 50 →
      (run s (List.replicate m (.crossfadeUiTick i))).crossfader
        = start + (target - start) * ((m : ℚ) / 50) := by
    intro m hm1 hm
    obtain ⟨_, _, _, _, _, _, p7⟩ := uiTicks_props m s i start target 0 h (by omega)
    rw [p7 (by omega)]
    simp [hsteps]
  have hlam : ∀ m : Nat, m ≤ 50 → (0 : ℚ) ≤ (m : ℚ) / 50 ∧ (m : ℚ) / 50 ≤ 1 := by
    intro m hm
    have : (m : ℚ) ≤ 50 := by exact_mod_cast hm
    constructor
    · positivity
    · rw [div_le_one (by norm_num)]; exact this
  obtain ⟨q1, _⟩ := uiTicks_props k s i start target 0 h (by omega)
  have h51 : run s (List.replicate 51 (.crossfadeUiTick i))
      = crossfadeUiTick (run s (List.replicate 50 (.crossfadeUiTick i))) i := by
    have : List.replicate 51 (Event.crossfadeUiTick i)
        = List.replicate 50 (Event.crossfadeUiTick i) ++ [Event.crossfadeUiTick i] := by
      rw [← List.replicate_succ']
    rw [this, run_append, run_singleton, step_crossfadeUiTick]
  obtain ⟨r1, _⟩ := uiTicks_props 50 s i start target 0 h (by omega)
  have hstop := crossfadeUiTick_stop (run s (List.replicate 50 (.crossfadeUiTick i))) i start target
    (by rw [r1]; rfl)
  have hlist := uiTicks_list 50 s i start target 0 h (by omega)
  refine ⟨hval k hk1 hk, ?_, ?_, ?_, ?_, ?_, ?_, ?_⟩
  · rw [hval k hk1 hk]
    exact (interpolation_between start target _ (hlam k hk).1 (hlam k hk).2).1
  · rw [hval k hk1 hk]
    exact (interpolation_between start target _ (hlam k hk).1 (hlam k hk).2).2
  · intro k2 hk2
    rw [hval k hk1 hk, hval k2 (by omega) hk2.2,
      interpolation_distance _ _ _ (hlam k hk).2, interpolation_distance _ _ _ (hlam k2 hk2.2).2]
    apply mul_le_mul_of_nonneg_left _ (abs_nonneg _)
    have : (k : ℚ) ≤ (k2 : ℚ) := by exact_mod_cast hk2.1
    linarith [div_le_div_of_nonneg_right this (by norm_num : (0 : ℚ) ≤ 50)]
  · rw [hval 50 (by omega) (le_refl _)]; norm_num
  · rw [q1]; simp
  · rw [h51, hstop]
  · rw [h51, hstop]
    dsimp only
    rw [hlist, list_eraseIdx_set]

/-- C21 on the crossfade begun by `crossfadeTrace`: start `1/2`, target 1. -/
theorem crossfader_ui_interpolation_witness :
    (run page crossfadeTrace).crossfadeUiIntervals[0]? = some ⟨1 / 2, 1, 0⟩
    ∧ (run (run page crossfadeTrace) (List.replicate 1 (.crossfadeUiTick 0))).crossfader = 51 / 100
    ∧ (run (run page crossfadeTrace) (List.replicate 50 (.crossfadeUiTick 0))).crossfader = 1
    ∧ (run (run page crossfadeTrace) (List.replicate 51 (.crossfadeUiTick 0))).crossfadeUiIntervals
        = [] := by
  have h := crossfader_ui_interpolation (run page crossfadeTrace) 0 1 (1 / 2) 1 (by decide!)
    (by decide) (by decide)
  refine ⟨by decide!, ?_, h.2.2.2.2.1, ?_⟩
  · rw [h.1]; norm_num
  · rw [h.2.2.2.2.2.2.2]; decide!


/-! ## C22: the queue cursor -/

theorem cursorValid_of_eq (s t : State) (hq : t.automixQueue = s.automixQueue)
    (hi : t.automixQueueIndex = s.automixQueueIndex) (h : CursorValid s) : CursorValid t := by
  unfold CursorValid at *
  rw [hq, hi]; exact h

theorem length_enqueue (queue : List File) (file : File) :
    queue.length ≤ (enqueue queue file).length := by
  unfold enqueue
  split
  · exact le_refl _
  · simp

theorem length_foldl_enqueue (files queue : List File) :
    queue.length ≤ (files.foldl enqueue queue).length := by
  induction files generalizing queue with
  | nil => exact le_refl _
  | cons f rest ih => exact le_trans (length_enqueue queue f) (ih _)

theorem cursorValid_of_grow (s t : State) (hq : s.automixQueue.length ≤ t.automixQueue.length)
    (hi : t.automixQueueIndex = s.automixQueueIndex) (h : CursorValid s) : CursorValid t := by
  unfold CursorValid at *
  rw [hi]
  rcases h with ⟨h1, h2⟩ | h
  · rw [h2]
    cases hl : t.automixQueue with
    | nil => exact Or.inl ⟨rfl, rfl⟩
    | cons a l => right; simp
  · right; omega

/-- cursor after selection -/
theorem loadNext_cursorValid (s : State) (i : Fin 2) (h : CursorValid s) :
    CursorValid (loadNextTrackForAutomix s i).state := by
  unfold loadNextTrackForAutomix
  by_cases hlen : s.automixQueue.length = 0
  · simp only [hlen, if_true]; exact h
  · simp only [hlen, if_false]
    cases hsc : scanQueue s.automixQueue s.automixQueueIndex (s.decks (1 - i)) 0
        s.automixQueue.length with
    | none => exact h
    | some r =>
      cases r with
      | none => exact h
      | some p =>
        obtain ⟨idx, file⟩ := p
        simp only [Outcome.state]
        right
        simp only [setDeck_automixQueue, setDeck_automixQueueIndex]
        exact Nat.mod_lt _ (Nat.pos_of_ne_zero hlen)

@[simp] theorem playOnDeck_automixQueueIndex (s : State) (i : Fin 2) :
    (playOnDeck s i).automixQueueIndex = s.automixQueueIndex := by
  simp [playOnDeck]

@[simp] theorem beginCrossfade_automixQueueIndex (s : State) (a : Fin 2) :
    (beginCrossfade s a).automixQueueIndex = s.automixQueueIndex := by
  unfold beginCrossfade
  simp only
  split <;> simp

theorem playOnDeck_cursorValid (s : State) (i : Fin 2) (h : CursorValid s) :
    CursorValid (playOnDeck s i) :=
  cursorValid_of_eq s _ (by simp) (by simp) h

theorem beginCrossfade_cursorValid (s : State) (a : Fin 2) (h : CursorValid s) :
    CursorValid (beginCrossfade s a) :=
  cursorValid_of_eq s _ (by simp) (by simp) h

theorem setDeck_cursorValid (s : State) (i : Fin 2) (d : Deck) (h : CursorValid s) :
    CursorValid (s.setDeck i d) :=
  cursorValid_of_eq s _ (by simp) (by simp) h

theorem startAutomix_cursorValid (s : State) (h : CursorValid s) :
    CursorValid (startAutomix s).state := by
  have hl := loadNext_cursorValid s s.currentActiveDeckIndex h
  unfold startAutomix
  simp only
  by_cases h1 : (!(s.decks s.currentActiveDeckIndex).isPlaying
      && decide ((s.decks s.currentActiveDeckIndex).wavesurfer.duration > 0)) = true
  · simp only [h1, if_true, Outcome.state]
    exact cursorValid_of_eq _ _ rfl rfl (playOnDeck_cursorValid s _ h)
  · by_cases h2 : ((s.decks s.currentActiveDeckIndex).audioBuffer.isNone
        && decide (s.automixQueue.length > 0)) = true
    · simp only [h1, h2, if_true, if_false]
      cases hload : loadNextTrackForAutomix s s.currentActiveDeckIndex with
      | typeError s1 => rw [hload] at hl; simpa [Outcome.state] using hl
      | ok v s1 =>
        rw [hload] at hl
        simp only [Outcome.state] at hl
        by_cases h3 : (s1.decks s1.currentActiveDeckIndex).audioBuffer.isSome = true
        · simp only [h3, if_true, Outcome.state]
          exact cursorValid_of_eq _ _ rfl rfl (playOnDeck_cursorValid s1 _ hl)
        · simp only [h3, if_false, Outcome.state]
          exact cursorValid_of_eq _ _ rfl rfl hl
    · simp only [h1, h2, if_false, Outcome.state]
      exact cursorValid_of_eq _ _ rfl rfl h

theorem automixClick_cursorValid (s : State) (h : CursorValid s) :
    CursorValid (automixClick s).state := by
  unfold automixClick
  split
  · exact cursorValid_of_eq _ _ rfl rfl h
  · split
    · exact h
    · exact startAutomix_cursorValid s h

theorem tickCrossfade_cursorValid (s : State) (a : Fin 2) (h : CursorValid s) :
    CursorValid (tickCrossfade s a).state := by
  have hl := loadNext_cursorValid s (1 - a) h
  unfold tickCrossfade
  simp only
  split
  · split
    · cases hload : loadNextTrackForAutomix s (1 - a) with
      | typeError s1 => rw [hload] at hl; simpa [Outcome.state] using hl
      | ok v s1 =>
        rw [hload] at hl
        simp only [Outcome.state] at hl
        cases v
        · exact hl
        · exact beginCrossfade_cursorValid s1 a hl
    · exact beginCrossfade_cursorValid s a h
  · exact h

theorem monitorTick_cursorValid (s : State) (h : CursorValid s) :
    CursorValid (monitorTick s).state := by
  unfold monitorTick
  split
  · exact h
  · simp only
    split
    · generalize hst : s.setDeck s.currentActiveDeckIndex
        { s.decks s.currentActiveDeckIndex with wavesurfer := (s.decks s.currentActiveDeckIndex).wavesurfer.stop, isPlaying := false } = s0
      have h0 : CursorValid s0 := by rw [← hst]; exact setDeck_cursorValid s _ _ h
      have hl := loadNext_cursorValid s0 s.currentActiveDeckIndex h0
      cases hload : loadNextTrackForAutomix s0 s.currentActiveDeckIndex with
      | typeError s1 => rw [hload] at hl; simpa [Outcome.state] using hl
      | ok v s1 =>
        rw [hload] at hl
        simp only [Outcome.state] at hl
        cases v
        · exact cursorValid_of_eq _ _ rfl rfl hl
        · exact tickCrossfade_cursorValid _ _ (playOnDeck_cursorValid s1 _ hl)
    · exact tickCrossfade_cursorValid s _ h

@[simp] theorem onDeck_automixQueueIndex (s : State) (i : Fin 2) (f : Deck → Deck) :
    (s.onDeck i f).automixQueueIndex = s.automixQueueIndex := by
  simp [State.onDeck]

theorem step_cursorValid (s : State) (e : Event) (h : CursorValid s) :
    CursorValid (step s e) := by
  cases e with
  | fileInputChange i files =>
    simp only [step, fileInputChange]
    cases files with
    | nil => exact h
    | cons f rest =>
      refine cursorValid_of_grow s _ ?_ ?_ h
      · simpa using length_foldl_enqueue (f :: rest) s.automixQueue
      · simp
  | documentDrop deckElement files =>
    simp only [step, documentDrop]
    split
    · exact h
    · rename_i first rest hfilter
      split
      · refine cursorValid_of_grow s _ ?_ ?_ h
        · simpa using length_foldl_enqueue _ s.automixQueue
        · simp
      · refine cursorValid_of_grow s _ ?_ ?_ h
        · simpa using length_foldl_enqueue _ s.automixQueue
        · rfl
  | clearPlaylistClick confirmed =>
    simp only [step, clearPlaylistClick]
    split
    · exact Or.inl ⟨rfl, rfl⟩
    · exact h
  | automixClick => exact automixClick_cursorValid s h
  | monitorTick => exact monitorTick_cursorValid s h
  | syncClick i =>
    refine cursorValid_of_eq s _ ?_ ?_ h
    · simp only [step]; unfold syncClick; simp only
      split
      · split
        · split <;> simp
        · simp
      · split <;> simp
    · simp only [step]; unfold syncClick; simp only
      split
      · split
        · split <;> simp
        · simp
      · split <;> simp
  | cueClick i =>
    refine cursorValid_of_eq s _ ?_ ?_ h
    · simp only [step]; unfold cueClick; simp only; split <;> simp
    · simp only [step]; unfold cueClick; simp only; split <;> simp
  | hotCueClick i c =>
    refine cursorValid_of_eq s _ ?_ ?_ h
    · simp only [step]; unfold hotCueClick; simp only; split <;> simp
    · simp only [step]; unfold hotCueClick; simp only; split <;> simp
  | playlistLoad index i =>
    refine cursorValid_of_eq s _ ?_ ?_ h
    · simp only [step]; unfold playlistLoad; split <;> simp
    · simp only [step]; unfold playlistLoad; split <;> simp
  | crossfadeUiTick k =>
    refine cursorValid_of_eq s _ ?_ ?_ h
    · simp only [step]; unfold crossfadeUiTick; split
      · rfl
      · simp only; split <;> rfl
    · simp only [step]; unfold crossfadeUiTick; split
      · rfl
      · simp only; split <;> rfl
  | flipTimeout k =>
    refine cursorValid_of_eq s _ ?_ ?_ h
    · simp only [step]; unfold flipTimeout; split <;> simp
    · simp only [step]; unfold flipTimeout; split <;> simp
  | pauseTimeout k =>
    refine cursorValid_of_eq s _ ?_ ?_ h
    · simp only [step]; unfold pauseTimeout; split <;> simp
    · simp only [step]; unfold pauseTimeout; split <;> simp
  | _ => exact cursorValid_of_eq s _ (by simp [step]) (by simp [step]) h

theorem run_cursorValid (events : List Event) (s : State) (h : CursorValid s) :
    CursorValid (run s events) := by
  induction events generalizing s with
  | nil => exact h
  | cons e rest ih => exact ih (step s e) (step_cursorValid s e h)

/-- C22: from the freshly loaded page, after any sequence of callbacks
(insertions, track selections by automix, clear and all others) the cursor
is 0 if the queue is empty and below the queue length otherwise. -/
theorem cursor_always_valid (label : String) (volume crossfader : ℚ) (events : List Event) :
    ((run (initialState label volume crossfader) events).automixQueue = []
        ∧ (run (initialState label volume crossfader) events).automixQueueIndex = 0)
    ∨ (run (initialState label volume crossfader) events).automixQueueIndex
        < (run (initialState label volume crossfader) events).automixQueue.length :=
  run_cursorValid events _ (Or.inl ⟨rfl, rfl⟩)


/-! ## C23, C24: selection against a deck loaded by the user -/

/-- C23 (code defect): the user loaded `trackX` on deck 1 and started automix.
Deck 1 has decoded content, queue entry `trackX` bears its displayed name,
and its `currentFile` record is absent (only `loadNextTrackForAutomix`
assigns it).  The comparison throws a `TypeError`: selection for deck 2
faults and so does the monitor tick that called it. -/
theorem automix_tick_throws_on_user_loaded_deck :
    (run page tickFaultTrace).automixInterval = true
    ∧ (run page tickFaultTrace).currentActiveDeckIndex = 0
    ∧ ((run page tickFaultTrace).decks 0).audioBuffer = some trackX
    ∧ trackX ∈ (run page tickFaultTrace).automixQueue
    ∧ trackX.name = ((run page tickFaultTrace).decks 0).trackInfo
    ∧ ((run page tickFaultTrace).decks 0).currentFile = none
    ∧ candidateOk ((run page tickFaultTrace).decks 0) trackX = none
    ∧ loadNextTrackForAutomix (run page tickFaultTrace) 1 = .typeError (run page tickFaultTrace)
    ∧ monitorTick (run page tickFaultTrace) = .typeError (run page tickFaultTrace) := by
  decide!


theorem same_of_candidateOk_false (o : Deck) (t : File) (h : candidateOk o t = some false) :
    sameAsOtherDeck o t := by
  unfold candidateOk at h
  cases hb : o.audioBuffer with
  | none => simp [hb] at h
  | some b =>
    by_cases hname : t.name = o.trackInfo
    · cases hcf : o.currentFile with
      | none => simp [hb, hname, hcf] at h
      | some cf =>
        simp [hb, hname, hcf] at h
        exact ⟨by simp [hb], hname, cf, hcf, h⟩
    · simp [hb, hname] at h

theorem candidateOk_defined (o : Deck) (t : File)
    (hdef : o.audioBuffer = none ∨ o.currentFile ≠ none) :
    candidateOk o t = some true ∨ candidateOk o t = some false := by
  by_cases hs : sameAsOtherDeck o t
  · exact Or.inr (candidateOk_of_same o t hs)
  · exact Or.inl (candidateOk_of_not_same o t hdef hs)

theorem scanQueue_ne_none (queue : List File) (c : Nat) (o : Deck) (n i : Nat)
    (hlen : queue.length ≠ 0) (hdef : o.audioBuffer = none ∨ o.currentFile ≠ none) :
    scanQueue queue c o i n ≠ none := by
  induction n generalizing i with
  | zero => simp [scanQueue]
  | succ n ih =>
    have hlt : (c + i) % queue.length < queue.length := Nat.mod_lt _ (Nat.pos_of_ne_zero hlen)
    unfold scanQueue
    simp only [List.getElem?_eq_getElem hlt]
    rcases candidateOk_defined o queue[(c + i) % queue.length] hdef with h | h
    · simp [h]
    · simp only [h]; exact ih (i + 1)

theorem scanQueue_none_inv (queue : List File) (c : Nat) (o : Deck) (n i : Nat)
    (h : scanQueue queue c o i n = some none) :
    ∀ j, i ≤ j → j < i + n →
      ∃ u, queue[(c + j) % queue.length]? = some u ∧ sameAsOtherDeck o u := by
  induction n generalizing i with
  | zero => intro j h1 h2; omega
  | succ n ih =>
    unfold scanQueue at h
    simp only at h
    cases hq : queue[(c + i) % queue.length]? with
    | none => simp [hq] at h
    | some t =>
      simp only [hq] at h
      cases hc : candidateOk o t with
      | none => simp [hc] at h
      | some b =>
        cases b with
        | true => simp [hc] at h
        | false =>
          simp only [hc] at h
          intro j h1 h2
          by_cases hij : j = i
          · subst hij
            exact ⟨t, hq, same_of_candidateOk_false o t hc⟩
          · exact ih (i + 1) h j (by omega) (by omega)

theorem succ_mod_ne (c len : Nat) (hlen : 2 ≤ len) : (c + 0) % len ≠ (c + 1) % len := by
  have hr : c % len < len := Nat.mod_lt _ (by omega)
  rw [Nat.add_zero, Nat.add_mod, Nat.mod_eq_of_lt (show 1 < len by omega)]
  rcases Nat.lt_or_ge (c % len + 1) len with h | h
  · rw [Nat.mod_eq_of_lt h]; omega
  · have : c % len + 1 = len := by omega
    rw [this, Nat.mod_self]; omega

theorem same_key_of_same (o : Deck) (t u : File) (ht : sameAsOtherDeck o t)
    (hu : sameAsOtherDeck o u) : t.key = u.key := by
  obtain ⟨_, hn1, cf1, hc1, hs1⟩ := ht
  obtain ⟨_, hn2, cf2, hc2, hs2⟩ := hu
  rw [hc1] at hc2
  cases hc2
  simp [File.key, hn1, hn2, hs1, hs2]

/-- Supporting fact for C24: on a queue without duplicate `(name, size)`
pairs, `loadNextTrackForAutomix` returns `false` only if the queue is empty
or is a single entry identified with the other deck's track; and whenever the
comparison with the other deck is defined (that deck has no decoded audio, or
it carries a `currentFile` record) and the queue has at least two entries, it
returns `true` and leaves the queue as it is. -/
theorem loadNext_finds_track (s : State) (k : Fin 2) (hnodup : NoDupKeys s.automixQueue) :
    (((s.decks (1 - k)).audioBuffer = none ∨ (s.decks (1 - k)).currentFile ≠ none) →
      2 ≤ s.automixQueue.length →
        ∃ s1, loadNextTrackForAutomix s k = .ok true s1 ∧ s1.automixQueue = s.automixQueue)
    ∧ (∀ s1, loadNextTrackForAutomix s k = .ok false s1 →
        s.automixQueue = []
        ∨ ∃ t, s.automixQueue = [t] ∧ sameAsOtherDeck (s.decks (1 - k)) t) := by
  by_cases hlen : s.automixQueue.length = 0
  · refine ⟨fun _ h2 => by omega, fun _ _ => Or.inl (List.length_eq_zero.mp hlen)⟩
  · cases hsc : scanQueue s.automixQueue s.automixQueueIndex (s.decks (1 - k)) 0
        s.automixQueue.length with
    | none =>
      refine ⟨fun hdef _ => absurd hsc (scanQueue_ne_none _ _ _ _ _ hlen hdef), fun s1 h1 => ?_⟩
      have hres : loadNextTrackForAutomix s k = .typeError s := by
        unfold loadNextTrackForAutomix
        simp only [hlen, if_false, hsc]
      rw [hres] at h1
      cases h1
    | some r =>
      cases r with
      | none =>
        have hall := scanQueue_none_inv _ _ _ _ _ hsc
        have hsmall : s.automixQueue.length < 2 := by
          by_contra hge
          have h2 : 2 ≤ s.automixQueue.length := by omega
          obtain ⟨u0, hu0, hs0⟩ := hall 0 (le_refl _) (by omega)
          obtain ⟨u1, hu1, hs1⟩ := hall 1 (by omega) (by omega)
          have hkey := same_key_of_same _ _ _ hs0 hs1
          have hi0 : (s.automixQueueIndex + 0) % s.automixQueue.length < (s.automixQueue.map File.key).length := by
            rw [List.length_map]; exact Nat.mod_lt _ (by omega)
          have hi1 : (s.automixQueueIndex + 1) % s.automixQueue.length < (s.automixQueue.map File.key).length := by
            rw [List.length_map]; exact Nat.mod_lt _ (by omega)
          have hm0 : (s.automixQueue.map File.key)[(s.automixQueueIndex + 0) % s.automixQueue.length] = u0.key := by
            rw [List.getElem_map]
            rw [List.getElem?_eq_getElem (by rw [List.length_map] at hi0; exact hi0)] at hu0
            cases hu0; rfl
          have hm1 : (s.automixQueue.map File.key)[(s.automixQueueIndex + 1) % s.automixQueue.length] = u1.key := by
            rw [List.getElem_map]
            rw [List.getElem?_eq_getElem (by rw [List.length_map] at hi1; exact hi1)] at hu1
            cases hu1; rfl
          have := (@List.Nodup.getElem_inj_iff _ _ hnodup _ hi0 _ hi1).mp
            (by rw [hm0, hm1, hkey])
          exact succ_mod_ne _ _ h2 this
        refine ⟨fun _ h2 => by omega, fun s1 _ => Or.inr ?_⟩
        have hone : s.automixQueue.length = 1 := by omega
        obtain ⟨u0, hu0, hs0⟩ := hall 0 (le_refl _) (by omega)
        obtain ⟨t, ht⟩ := List.length_eq_one.mp hone
        refine ⟨t, ht, ?_⟩
        rw [ht] at hu0
        have hz : s.automixQueueIndex % 1 = 0 := Nat.mod_one _
        simp only [List.length_singleton, Nat.add_zero, hz, List.getElem?_cons_zero,
          Option.some.injEq] at hu0
        rw [hu0]; exact hs0
      | some p =>
        obtain ⟨idx, file⟩ := p
        have hres : loadNextTrackForAutomix s k = .ok true (State.setDeck { s with automixQueueIndex := (idx + 1) % s.automixQueue.length } k (({ s.decks k with currentFile := some file }).loadFile file)) := by
          unfold loadNextTrackForAutomix
          simp only [hlen, if_false, hsc]
          rfl
        refine ⟨fun _ _ => ⟨_, hres, by simp⟩, fun s1 h1 => ?_⟩
        rw [hres] at h1
        simp at h1


/-- C24 (code defect): the queue holds three entries without duplicates, the
cursor is at 1 and `trackY`, loaded by the user, is on deck 2.  Selection for
deck 1 inspects `trackY` first and throws at `otherDeck.currentFile.size`
instead of returning `true` with `trackZ` or `trackX`; the monitor tick that
calls it dies, automix stays installed and deck 1 keeps its track. -/
theorem automix_finds_no_track_among_three :
    (run page playlistLoadTrace).automixQueue = [trackX, trackY, trackZ]
    ∧ ((run page playlistLoadTrace).automixQueue.map File.key).Nodup
    ∧ (run page playlistLoadTrace).automixQueueIndex = 1
    ∧ (run page playlistLoadTrace).loadedTrack 1 = some trackY
    ∧ ((run page playlistLoadTrace).decks 1).currentFile = none
    ∧ loadNextTrackForAutomix (run page playlistLoadTrace) 0
        = .typeError (run page playlistLoadTrace)
    ∧ (∀ s1, loadNextTrackForAutomix (run page playlistLoadTrace) 0 ≠ .ok true s1)
    ∧ (monitorTick (run page playlistLoadTrace)).state.automixInterval = true
    ∧ (monitorTick (run page playlistLoadTrace)).state.loadedTrack 0 = some trackX := by
  refine ⟨by decide!, by decide!, by decide!, by decide!, by decide!, by decide!, ?_, by decide!, by decide!⟩
  intro s1 h
  have h2 : loadNextTrackForAutomix (run page playlistLoadTrace) 0
      = .typeError (run page playlistLoadTrace) := by decide!
  rw [h2] at h
  cases h


/-! ## C25: the tempo range and sync pitch -/

theorem jsRound_tempo_range (duration : ℚ) (hpos : 0 < duration) :
    (120 : ℤ) ≤ jsRound (120 + jsMod duration 20 * 0.5)
    ∧ jsRound (120 + jsMod duration 20 * 0.5) ≤ 130 := by
  rw [jsMod_of_pos duration hpos]
  have h1 : ((⌊duration / 20⌋ : ℤ) : ℚ) ≤ duration / 20 := Int.floor_le _
  have h2 : duration / 20 < ((⌊duration / 20⌋ : ℤ) : ℚ) + 1 := Int.lt_floor_add_one _
  unfold jsRound
  constructor
  · rw [Int.le_floor]
    push_cast
    norm_num
    linarith
  · have : ⌊120 + (duration - 20 * ((⌊duration / 20⌋ : ℤ) : ℚ)) * 0.5 + 1 / 2⌋ < 131 := by
      rw [Int.floor_lt]
      push_cast
      norm_num
      linarith
    omega

theorem analyzeBPM_range (d : Deck) (hpos : 0 < d.wavesurfer.duration) :
    ∃ t : ℚ, d.analyzeBPM.bpm = some t ∧ 120 ≤ t ∧ t ≤ 130
      ∧ t = ((jsRound (120 + jsMod d.wavesurfer.duration 20 * 0.5) : ℤ) : ℚ) := by
  obtain ⟨h1, h2⟩ := jsRound_tempo_range d.wavesurfer.duration hpos
  have q1 : (120 : ℚ) ≤ ((jsRound (120 + jsMod d.wavesurfer.duration 20 * 0.5) : ℤ) : ℚ) := by
    exact_mod_cast h1
  have q2 : ((jsRound (120 + jsMod d.wavesurfer.duration 20 * 0.5) : ℤ) : ℚ) ≤ 130 := by
    exact_mod_cast h2
  refine ⟨_, ?_, q1, q2, rfl⟩
  unfold Deck.analyzeBPM
  simp only [bne_iff_ne, ne_eq, ne_of_gt hpos, not_false_eq_true, if_true]
  rw [min_eq_left (by linarith), max_eq_right (by linarith)]

theorem syncClick_pitch (s : State) (i : Fin 2) (thisTempo otherTempo : ℚ)
    (hoff : (s.decks i).isSynced = false)
    (hthis : (s.decks i).bpm = some thisTempo) (hpos : 0 < thisTempo)
    (hother : (s.decks (1 - i)).bpm = some otherTempo) (hpos2 : 0 < otherTempo) :
    ((syncClick s i).decks i).pitch = (otherTempo / thisTempo - 1) * 100 := by
  have h1 : ∀ d, ((s.setDeck i d).decks (1 - i)) = s.decks (1 - i) :=
    fun d => decks_setDeck_other s i (1 - i) d (other_ne i)
  have ha : thisTempo ≠ 0 := ne_of_gt hpos
  have hb : otherTempo ≠ 0 := ne_of_gt hpos2
  fin_cases i <;>
  · simp at hother h1 hoff hthis
    simp [syncClick, hoff, hthis, hother, truthy, ha, hb, h1, WaveSurfer.setPlaybackRate]

/-- C25: for every positive duration the tempo `analyzeBPM` stores lies in
`[120, 130]` and is the rounded value itself (the clamp to `[80, 180]` does
not change it); hence, between two loaded decks whose tempos are those
`analyzeBPM` computes, enabling sync gives a pitch between
`(120/130 - 1) * 100` and `(130/120 - 1) * 100`. -/
theorem tempo_range_bounds_sync_pitch (s : State) (i : Fin 2)
    (hd1 : 0 < (s.decks i).wavesurfer.duration)
    (hd2 : 0 < (s.decks (1 - i)).wavesurfer.duration)
    (hb1 : (s.decks i).bpm = (s.decks i).analyzeBPM.bpm)
    (hb2 : (s.decks (1 - i)).bpm = (s.decks (1 - i)).analyzeBPM.bpm)
    (hoff : (s.decks i).isSynced = false) :
    (∀ d : Deck, 0 < d.wavesurfer.duration →
        ∃ t : ℚ, d.analyzeBPM.bpm = some t ∧ 120 ≤ t ∧ t ≤ 130
          ∧ t = ((jsRound (120 + jsMod d.wavesurfer.duration 20 * 0.5) : ℤ) : ℚ))
    ∧ ((120 : ℚ) / 130 - 1) * 100 ≤ ((syncClick s i).decks i).pitch
    ∧ ((syncClick s i).decks i).pitch ≤ ((130 : ℚ) / 120 - 1) * 100 := by
  refine ⟨analyzeBPM_range, ?_⟩
  obtain ⟨a, ha, a1, a2, _⟩ := analyzeBPM_range (s.decks i) hd1
  obtain ⟨b, hb, b1, b2, _⟩ := analyzeBPM_range (s.decks (1 - i)) hd2
  rw [← hb1] at ha
  rw [← hb2] at hb
  rw [syncClick_pitch s i a b hoff ha (by linarith) hb (by linarith)]
  have hpa : (0 : ℚ) < a := by linarith
  constructor
  · have : (120 : ℚ) / 130 ≤ b / a := by
      rw [div_le_div_iff₀ (by norm_num) hpa]
      nlinarith
    linarith
  · have : b / a ≤ (130 : ℚ) / 120 := by
      rw [div_le_div_iff₀ hpa (by norm_num)]
      nlinarith
    linarith

/-- C25 on decks at tempos 125 and 120: pitch `(120/125 - 1) * 100 = -4`. -/
theorem tempo_range_bounds_sync_pitch_witness :
    0 < ((run page twoLoadedTrace).decks 0).wavesurfer.duration
    ∧ 0 < ((run page twoLoadedTrace).decks (1 - 0)).wavesurfer.duration
    ∧ ((run page twoLoadedTrace).decks 0).bpm = some 125
    ∧ ((run page twoLoadedTrace).decks (1 - 0)).bpm = some 120
    ∧ ((syncClick (run page twoLoadedTrace) 0).decks 0).pitch = -4
    ∧ ((120 : ℚ) / 130 - 1) * 100 ≤ ((syncClick (run page twoLoadedTrace) 0).decks 0).pitch
    ∧ ((syncClick (run page twoLoadedTrace) 0).decks 0).pitch ≤ ((130 : ℚ) / 120 - 1) * 100 := by
  have h := tempo_range_bounds_sync_pitch (run page twoLoadedTrace) 0 (by decide!) (by decide!)
    (by decide!) (by decide!) (by decide!)
  exact ⟨by decide!, by decide!, by decide!, by decide!, by decide!, h.2.1, h.2.2⟩

end DjProgram
